import Mathlib

/-!
Forwarder: a verification development.

A shallow embedding of the message pipeline of the Forwarder Telegram bot
(`telegram.go`, `structs.go`, `image.go`, `database.go`) together with
theorems about it.

Conventions of the embedding:

* a Go `string` is its byte sequence (`GoString`, a list of byte values);
  `len`, indexing, `strings.HasPrefix` and `strings.HasSuffix` are the
  corresponding list operations;
* Go `int`, `int64` values are `Int`, `uint64` values are `Nat`; the one
  narrowing conversion of the pipeline, `int(e)` in `container.delete`, is
  written out (`intOfUint64`);
* `time.Time` is an instant in nanoseconds (`Int`), `time.Duration` likewise;
* everything the program obtains from the outside (the clock, the Telegram
  API, the HTTP download, the image decoders, the SQL connection) is an
  explicit input of the function that uses it;
* `o <- x` on the outbound channel appends `x` to the list of enqueued
  actions.
-/

namespace ForwarderSpec

/-! ## Strings -/

/-- A Go string: an immutable sequence of bytes. -/
abbrev GoString := List Nat

/-- UTF-8 encoding of one Unicode scalar value. -/
def utf8Char (c : Nat) : List Nat :=
  if c < 0x80 then [c]
  else if c < 0x800 then [0xC0 + c / 0x40, 0x80 + c % 0x40]
  else if c < 0x10000 then [0xE0 + c / 0x1000, 0x80 + c / 0x40 % 0x40, 0x80 + c % 0x40]
  else [0xF0 + c / 0x40000, 0x80 + c / 0x1000 % 0x40, 0x80 + c / 0x40 % 0x40, 0x80 + c % 0x40]

/-- The bytes of a Go string literal (Go source text is UTF-8). -/
def lit (s : String) : GoString :=
  s.toList.flatMap (fun c => utf8Char c.toNat)

/-- Go `strings.HasPrefix(s, p)`. -/
def HasPrefix (s p : GoString) : Bool := p.isPrefixOf s

/-- Go `strings.HasSuffix(s, p)`. -/
def HasSuffix (s p : GoString) : Bool := p.isSuffixOf s

/-! ## Hashtag spans (`splitTags`, telegram.go) -/

/-- The fields of `telegram.MessageEntity` that `splitTags` fills in. -/
structure MessageEntity where
  /-- Field `Type` of the Go struct (a reserved word here). -/
  Typ : GoString
  Offset : Int
  Length : Int
deriving DecidableEq, Repr

/-- The entity literal `telegram.MessageEntity{Offset: t, Length: n, Type: "hashtag"}`. -/
def hashtagEntity (t n : Int) : MessageEntity :=
  { Typ := lit "hashtag", Offset := t, Length := n }

/-- The second `case` list of the `switch v[i]` in `splitTags`: the bytes
`' ' / \ [ ] ~ ! @ $ % ^ & * ( ) = | : ; , "` and the single quote. -/
def isBreak (b : Nat) : Bool :=
  b == 32 || b == 47 || b == 92 || b == 91 || b == 93 || b == 126 || b == 33 ||
  b == 64 || b == 36 || b == 37 || b == 94 || b == 38 || b == 42 || b == 40 ||
  b == 41 || b == 61 || b == 124 || b == 58 || b == 59 || b == 44 || b == 34 ||
  b == 39

/-- The `for i := 0; i < len(v); i++` loop of `splitTags`, started at index
`i` on the bytes not yet read, with the loop variables `t` (start of the open
span, `-1` when none) and `e` (the spans appended so far). Returns the final
`(t, e)`. -/
def splitTagsLoop : List Nat → Int → Int → List MessageEntity → Int × List MessageEntity
  | [], _, t, e => (t, e)
  | b :: rest, i, t, e =>
    if b = 35 then
      -- case '#'
      if t = -1 then splitTagsLoop rest (i + 1) i e
      else if i - t > 0 then splitTagsLoop rest (i + 1) i (e ++ [hashtagEntity t (i - t)])
      else splitTagsLoop rest (i + 1) i e
    else if isBreak b then
      if t = -1 then splitTagsLoop rest (i + 1) t e
      else if i - t > 0 then splitTagsLoop rest (i + 1) i (e ++ [hashtagEntity t (i - t)])
      else splitTagsLoop rest (i + 1) i e
    else splitTagsLoop rest (i + 1) t e

/-- Go `splitTags(d)`: the loop from `i = 0`, `t = -1`, `e = nil`, then the
trailing `if t > 0` append. -/
def splitTags (d : GoString) : List MessageEntity :=
  let r := splitTagsLoop d 0 (-1) []
  if r.1 > 0 then r.2 ++ [hashtagEntity r.1 ((d.length : Int) - r.1)] else r.2

/-- The spans of `e`, in list order, lie in `[lo, hi]`, each of positive
length, each starting no earlier than the previous one ends. -/
def SpanChain (lo hi : Int) : List MessageEntity → Prop
  | [] => lo ≤ hi
  | a :: r => lo ≤ a.Offset ∧ 0 < a.Length ∧ SpanChain (a.Offset + a.Length) hi r

/-! ## The caption caches (`maps[T]`, structs.go) -/

/-- Go `captionTimeout = time.Minute * 3` (structs.go, next to `maps.set`), in
nanoseconds. forwarder.go declares the same name as five minutes; the
theorems below hold for either value. -/
def captionTimeout : Int := 3 * 60 * 1000000000

/-- Go `caption`: a cached text and the instant at which it expires. -/
structure caption where
  Tag : GoString
  Time : Int
deriving DecidableEq, Repr

/-- Go `m[k]` on a map given as the list of its entries: the entry stored
under `k`, if any. -/
def mapLookup {T : Type} [DecidableEq T] (l : List (T × caption)) (k : T) : Option caption :=
  match l with
  | [] => none
  | e :: r => if e.1 = k then some e.2 else mapLookup r k

/-- Go `delete(m, k)`: no entry is stored under `k` afterwards; the other
entries are untouched. -/
def mapDelete {T : Type} [DecidableEq T] (l : List (T × caption)) (k : T) : List (T × caption) :=
  l.filter (fun e => decide (e.1 ≠ k))

/-- Go `m[k] = c`: `k` is bound to `c`, replacing any earlier binding. -/
def mapAssign {T : Type} [DecidableEq T] (l : List (T × caption)) (k : T) (c : caption) :
    List (T × caption) :=
  (k, c) :: mapDelete l k

/-- Go `maps[T]`: the map `v`, as the list of its entries (each key at most
once, see `maps.WF`). The mutex `lock` only serialises the operations below,
each of which is modelled as one atomic step. -/
structure maps (T : Type) where
  v : List (T × caption)
deriving DecidableEq, Repr

/-- Representation invariant of a Go map: no key is bound twice. -/
def maps.WF {T : Type} (m : maps T) : Prop := (m.v.map Prod.fst).Nodup

/-- Go `make(map[T]caption)`. -/
def maps.empty {T : Type} : maps T := ⟨[]⟩

/-- Go `maps.set(v, s)`; `now` is the value `time.Now()` returns. -/
def maps.set {T : Type} [DecidableEq T] (m : maps T) (now : Int) (v : T) (s : GoString) : maps T :=
  ⟨mapAssign m.v v { Tag := s, Time := now + captionTimeout }⟩

/-- Go `maps.clear(v)`. -/
def maps.clear {T : Type} [DecidableEq T] (m : maps T) (v : T) : maps T :=
  ⟨mapDelete m.v v⟩

/-- The keys that the first loop of `maps.prune` collects in `r` when `range`
yields the entries in the order `it`: those whose `Time` is not after `n`. -/
def pruneKeys {T : Type} (it : List (T × caption)) (n : Int) : List T :=
  (it.filter (fun e => !decide (e.2.Time > n))).map Prod.fst

/-- Go `maps.prune(n)`. The iteration order of `range m.v` is not fixed by
the language, so the sequence `it` in which the entries are visited is an
input (a permutation of `m.v`); the second loop deletes the collected keys in
that order. -/
def maps.prune {T : Type} [DecidableEq T] (m : maps T) (it : List (T × caption)) (n : Int) :
    maps T :=
  ⟨(pruneKeys it n).foldl mapDelete m.v⟩

/-- Go `maps.get(v, del)`: returns `(r.Tag, ok)` — the zero caption has the
empty `Tag` — and the map afterwards. No clock is read and `Time` is not
inspected. -/
def maps.get {T : Type} [DecidableEq T] (m : maps T) (v : T) (del : Bool) :
    (GoString × Bool) × maps T :=
  let r := mapLookup m.v v
  let m2 : maps T := if del then ⟨mapDelete m.v v⟩ else m
  match r with
  | some c => ((c.Tag, true), m2)
  | none => (([], false), m2)

/-- One operation on a cache, for sequences of operations. -/
inductive CacheOp (T : Type) where
  | set (now : Int) (k : T) (s : GoString)
  | clear (k : T)
  | prune (it : List (T × caption)) (n : Int)
  | get (k : T) (del : Bool)

/-- The cache after one operation. -/
def CacheOp.run {T : Type} [DecidableEq T] (m : maps T) : CacheOp T → maps T
  | .set now k s => m.set now k s
  | .clear k => m.clear k
  | .prune it n => m.prune it n
  | .get k del => (m.get k del).2

/-- Whether the operation is a `set` on key `k`. -/
def CacheOp.setsKey {T : Type} [DecidableEq T] (k : T) : CacheOp T → Bool
  | .set _ k2 _ => decide (k2 = k)
  | _ => false

/-! ## Accounts (`container`, structs.go) -/

/-- Go `container`, the per-account state: `selfID` is `bot.Self.ID`; the
channel `ch` is represented by the list of values sent on it. -/
structure container where
  key : GoString
  selfID : Int
  recv : Int
  users : List Int
deriving DecidableEq, Repr

/-- Go `container.isAuthorized(u)`: the loop over `c.users`. -/
def isAuthorizedLoop (u : Int) : List Int → Bool
  | [] => false
  | x :: r => if u = x then true else isAuthorizedLoop u r

/-- Go `container.isAuthorized(u)`. -/
def container.isAuthorized (c : container) (u : Int) : Bool :=
  isAuthorizedLoop u c.users

/-! ## Telegram values used by the pipeline -/

/-- Go `telegram.PhotoSize`, the fields read by `getTarget`. -/
structure PhotoSize where
  FileID : GoString
  FileSize : Int
deriving DecidableEq, Repr

/-- The fields `FileID`, `MimeType` shared by `telegram.Video`,
`telegram.Animation` and `telegram.Document`. -/
structure FileRef where
  FileID : GoString
  MimeType : GoString
deriving DecidableEq, Repr

/-- Go `telegram.Chat`; `Typ` is its field `Type`. -/
structure Chat where
  ID : Int
  Typ : GoString
deriving DecidableEq, Repr

/-- Go `Chat.IsPrivate()`: the chat type is `"private"`. -/
def Chat.IsPrivate (c : Chat) : Bool := decide (c.Typ = lit "private")

/-- Go `telegram.User`, the fields read by `receive`. -/
structure User where
  ID : Int
  IsBot : Bool
deriving DecidableEq, Repr

/-- Go `telegram.Message`, the fields read by the pipeline; a `nil` pointer
is `none`. -/
structure Message where
  Chat : Option Chat
  From : Option User
  Text : GoString
  Caption : GoString
  MediaGroupID : GoString
  Photo : List PhotoSize
  Video : Option FileRef
  Animation : Option FileRef
  Document : Option FileRef
deriving DecidableEq, Repr

/-- Go `telegram.Update`. -/
structure Update where
  Message : Option Message
deriving DecidableEq, Repr

/-- Go `fileData` (image.go). -/
structure fileData where
  Sum : GoString
  FileID : GoString
  Average : Nat
deriving DecidableEq, Repr

/-- Go `emptyJpeg` (telegram.go): the bytes of the placeholder picture. -/
def emptyJpeg : List Nat :=
  [0xFF, 0xD8, 0xFF, 0xE0, 0x00, 0x10, 0x4A, 0x46, 0x49, 0x46, 0x00, 0x01, 0x01, 0x00, 0x00, 0x60, 0x00, 0x60, 0x00, 0x00, 0xFF, 0xDB, 0x00, 0x43, 0x00, 0x03, 0x02, 0x02, 0x02, 0x02, 0x02, 0x03, 0x02, 0x02, 0x02, 0x03, 0x03, 0x03, 0x03, 0x04,
   0x06, 0x04, 0x04, 0x04, 0x04, 0x04, 0x08, 0x06, 0x06, 0x05, 0x06, 0x09, 0x08, 0x0A, 0x0A, 0x09, 0x08, 0x09, 0x09, 0x0A, 0x0C, 0x0F, 0x0C, 0x0A, 0x0B, 0x0E, 0x0B, 0x09, 0x09, 0x0D, 0x11, 0x0D, 0x0E, 0x0F, 0x10, 0x10, 0x11, 0x10, 0x0A, 0x0C,
   0x12, 0x13, 0x12, 0x10, 0x13, 0x0F, 0x10, 0x10, 0x10, 0xFF, 0xC0, 0x00, 0x0B, 0x08, 0x00, 0x01, 0x00, 0x01, 0x01, 0x01, 0x11, 0x00, 0xFF, 0xC4, 0x00, 0x14, 0x00, 0x01, 0x00, 0x00, 0x00, 0x00, 0x00, 0x00, 0x00, 0x00, 0x00, 0x00, 0x00, 0x00,
   0x00, 0x00, 0x00, 0x09, 0xFF, 0xC4, 0x00, 0x14, 0x10, 0x01, 0x00, 0x00, 0x00, 0x00, 0x00, 0x00, 0x00, 0x00, 0x00, 0x00, 0x00, 0x00, 0x00, 0x00, 0x00, 0x00, 0xFF, 0xDA, 0x00, 0x08, 0x01, 0x01, 0x00, 0x00, 0x3F, 0x00, 0x54, 0xDF, 0xFF, 0xD9]

/-- The `telegram.Chattable` values the pipeline builds. `MessageConfig`
covers both `telegram.NewMessage(chat, text)` (notification enabled) and the
literal with `DisableNotification: true`; `DeleteMessageConfig` is
`telegram.NewDeleteMessage(chat, id)`. -/
inductive Chattable where
  | MessageConfig (ChatID : Int) (Text : GoString) (DisableNotification : Bool)
  | DeleteMessageConfig (ChatID : Int) (MessageID : Int)
  | AnimationConfig (ChatID : Int) (File : fileData) (Caption : GoString)
  | VideoConfig (ChatID : Int) (File : fileData) (Caption : GoString)
  | PhotoConfig (ChatID : Int) (Name : GoString) (Bytes : List Nat)
      (DisableNotification : Bool)
  | EditMessageMediaConfig (ChatID : Int) (MessageID : Int) (Media : GoString)
      (Caption : GoString) (ParseMode : GoString) (CaptionEntities : List MessageEntity)
deriving DecidableEq, Repr

/-- Go `telegram.NewMessage(chat, text)`. -/
def NewMessage (chat : Int) (text : GoString) : Chattable :=
  .MessageConfig chat text false

/-- Go `telegram.NewDeleteMessage(chat, id)`. -/
def NewDeleteMessage (chat : Int) (id : Int) : Chattable :=
  .DeleteMessageConfig chat id

/-- Whether an outbound action is a delete-message action. -/
def Chattable.isDelete : Chattable → Bool
  | .DeleteMessageConfig _ _ => true
  | _ => false

/-- Whether an outbound action is a media edit. -/
def Chattable.isEdit : Chattable → Bool
  | .EditMessageMediaConfig _ _ _ _ _ _ => true
  | _ => false

/-- A synchronous call the pipeline makes on its own goroutine: a direct
`c.bot.Send`, or one of the two prepared statements of `queryStatements`
(database.go) with its arguments. -/
inductive Call where
  | Send (x : Chattable)
  | QueryAdd (Hash1 : Nat) (Hash2 : GoString) (BotID : Int) (MessageID : Int)
  | QueryDelete (Hash1 : GoString) (BotID : Int)
deriving DecidableEq, Repr

/-- Whether a call is a direct send of a media edit. -/
def Call.isEdit : Call → Bool
  | .Send x => x.isEdit
  | _ => false

/-! ## `getTarget` (telegram.go) -/

/-- The element `sort.Sort(photos(p))` leaves at index 0: one of largest
`FileSize` (`Less` is `FileSize >`). Among several of the same largest size
the earliest is taken here. That is what Go returns for up to 12 sizes
(insertion sort, which is stable); `sort.Sort` is not stable beyond that, so
for 13 or more sizes with a tie for the largest Go may return another photo
of that same size. No theorem below depends on which file is chosen: each is
stated for whatever `getTarget` returns. -/
def largestPhoto (first : PhotoSize) : List PhotoSize → PhotoSize
  | [] => first
  | p :: r => if p.FileSize > first.FileSize then largestPhoto p r else largestPhoto first r

/-- Go `getTarget(m)`: the file id and declared MIME type of the attachment. -/
def getTarget (m : Message) : GoString × GoString :=
  match m.Photo with
  | p :: r => ((largestPhoto p r).FileID, [])
  | [] =>
    match m.Video with
    | some v => (v.FileID, v.MimeType)
    | none =>
      match m.Animation with
      | some a => (a.FileID, a.MimeType)
      | none =>
        match m.Document with
        | some d => (d.FileID, d.MimeType)
        | none => ([], [])

/-! ## `loadImage` (image.go) -/

/-- The non-nil errors `loadImage` can return: the sentinel `errNotImage`,
or an error of a library it calls. -/
inductive LoadError where
  | errNotImage
  | other
deriving DecidableEq, Repr

/-- What the outside world does during one `loadImage` call that gets past
the MIME check: `bot.GetFile` fails, the HTTP request fails, the decoder
rejects the bytes, `goimagehash.PerceptionHash` fails, or the picture is
decoded and hashed (`sum` is the hex SHA-512 of the bytes read, `average` the
perception hash, a `uint64`). -/
inductive Fetch where
  | getFileError
  | httpError
  | decodeError
  | hashError
  | hashed (sum : GoString) (average : Nat)
deriving DecidableEq, Repr

/-- Go `loadImage(x, bot, id, mime)`. -/
def loadImage (w : Fetch) (id mime : GoString) : fileData × Option LoadError :=
  if mime.length > 0 && !HasPrefix mime (lit "image/") then
    ({ Sum := [], FileID := id, Average := 0 }, some .errNotImage)
  else
    match w with
    | .getFileError => ({ Sum := [], FileID := [], Average := 0 }, some .other)
    | .httpError => ({ Sum := [], FileID := [], Average := 0 }, some .other)
    | .decodeError => ({ Sum := [], FileID := id, Average := 0 }, some .errNotImage)
    | .hashError => ({ Sum := [], FileID := [], Average := 0 }, some .other)
    | .hashed sum average => ({ Sum := sum, FileID := id, Average := average }, none)

/-! ## The add and delete flows (telegram.go) -/

/-- Go `addFailed`. -/
def addFailed : Nat := 0
/-- Go `addAlreadyExists = iota`, the second constant of its block. -/
def addAlreadyExists : Nat := 1
/-- Go `addIsNotImage`, the third constant of the block. -/
def addIsNotImage : Nat := 2
/-- Go `addSuccess`, the fourth constant of the block. -/
def addSuccess : Nat := 3

/-- The `for r.Next() { if err = r.Scan(&e); err != nil { break } }` loop:
each row either scans into `e` (`some x`) or makes `Scan` fail (`none`).
Returns the final `e` and whether `err` is non-nil. -/
def scanRows : List (Option Nat) → Nat → Nat × Bool
  | [], e => (e, false)
  | none :: _, e => (e, true)
  | some x :: r, _ => scanRows r x

/-- What the outside world does during one `container.add` call: the
download and decoding, the placeholder `Send` (`none`: error, `some p`: the
`MessageID` of the message created), the `"add"` query (`none`:
`QueryContext` fails, `some rows`: the rows returned) and whether the media
edit `Send` succeeds. -/
structure AddWorld where
  fetch : Fetch
  placeholder : Option Int
  query : Option (List (Option Nat))
  edit : Bool
deriving DecidableEq, Repr

/-- What one flow does: its return value, the values it sends on the
outbound channel `o` (in order) and its synchronous calls (in order). -/
structure FlowResult (R : Type) where
  ret : R
  queue : List Chattable
  calls : List Call
deriving DecidableEq, Repr

/-- The placeholder `telegram.PhotoConfig` that `container.add` sends. -/
def placeholderPhoto (c : container) (i : fileData) : Chattable :=
  .PhotoConfig c.recv i.Sum emptyJpeg true

/-- The `telegram.EditMessageMediaConfig` that `container.add` sends to turn
placeholder `p` into the picture `i` with caption `d`. -/
def mediaEdit (c : container) (i : fileData) (p : Int) (d : GoString) : Chattable :=
  .EditMessageMediaConfig c.recv p i.FileID d (lit "markdown") (splitTags d)

/-- Go `container.add(x, f, v, m, d, o)`. The statement
`strings.Split(d, "#")` discards its result and is omitted; logging is
omitted. -/
def container.add (c : container) (io : AddWorld) (v m d : GoString) : FlowResult Nat :=
  match loadImage io.fetch v m with
  | (i, some .errNotImage) =>
    if HasSuffix m (lit "/gif") then
      { ret := addIsNotImage, queue := [.AnimationConfig c.recv i d], calls := [] }
    else if HasPrefix m (lit "video/") then
      { ret := addIsNotImage, queue := [.VideoConfig c.recv i d], calls := [] }
    else
      { ret := addFailed, queue := [], calls := [] }
  | (_, some .other) => { ret := addFailed, queue := [], calls := [] }
  | (i, none) =>
    match io.placeholder with
    | none => { ret := addFailed, queue := [], calls := [.Send (placeholderPhoto c i)] }
    | some p =>
      let sent : List Call :=
        [.Send (placeholderPhoto c i), .QueryAdd i.Average i.Sum c.selfID p]
      match io.query with
      | none => { ret := addFailed, queue := [NewDeleteMessage c.recv p], calls := sent }
      | some rows =>
        if (scanRows rows 0).2 then
          { ret := addFailed, queue := [NewDeleteMessage c.recv p], calls := sent }
        else if (scanRows rows 0).1 ≠ 0 then
          { ret := addAlreadyExists, queue := [NewDeleteMessage c.recv p], calls := sent }
        else if io.edit then
          { ret := addSuccess, queue := [], calls := sent ++ [.Send (mediaEdit c i p d)] }
        else
          { ret := addFailed, queue := [NewDeleteMessage c.recv p],
            calls := sent ++ [.Send (mediaEdit c i p d)] }

/-- Go `int(e)` for a `uint64` value `e`, with the 64-bit `int` of the
platforms the bot is built for: values from `2^63` on wrap to negatives. -/
def intOfUint64 (e : Nat) : Int :=
  if e % 2 ^ 64 < 2 ^ 63 then ((e % 2 ^ 64 : Nat) : Int) else ((e % 2 ^ 64 : Nat) : Int) - 2 ^ 64

/-- What the outside world does during one `container.delete` call: the
download and decoding, and the `"delete"` query. -/
structure DeleteWorld where
  fetch : Fetch
  query : Option (List (Option Nat))
deriving DecidableEq, Repr

/-- Go `container.delete(x, f, v, m, o)`; logging is omitted. -/
def container.delete (c : container) (io : DeleteWorld) (v m : GoString) : FlowResult Bool :=
  match loadImage io.fetch v m with
  | (_, some _) => { ret := false, queue := [], calls := [] }
  | (i, none) =>
    let sent : List Call := [.QueryDelete i.Sum c.selfID]
    match io.query with
    | none => { ret := false, queue := [], calls := sent }
    | some rows =>
      if (scanRows rows 0).2 then { ret := false, queue := [], calls := sent }
      else if (scanRows rows 0).1 ≠ 0 then
        { ret := true, queue := [NewDeleteMessage c.recv (intOfUint64 (scanRows rows 0).1)],
          calls := sent }
      else { ret := true, queue := [], calls := sent }

/-! ## The inbound loop (`container.receive`, telegram.go) -/

/-- Modelled from the spec: the declaration of the fields `caps` and `groups`
of Go `Forwarder` is not among the sources (forwarder.go declares an older
`captions` field). telegram.go and structs.go use them as `maps` values, and
the spec (4.1) describes them: one cache keyed by user identifier (pending
caption), one keyed by media-group identifier (group caption). -/
structure Forwarder where
  caps : maps Int
  groups : maps GoString
deriving DecidableEq, Repr

/-- What the outside world does while one update is handled: the clock value
for a cache `set`, and the behaviour seen by the add or delete flow. -/
structure StepWorld where
  now : Int
  add : AddWorld
  del : DeleteWorld
deriving DecidableEq, Repr

/-- Which flow one update invoked, with the arguments `(v, m, d)` or
`(v, m)` it passed. -/
inductive Flow where
  | add (v m d : GoString)
  | delete (v m : GoString)
deriving DecidableEq, Repr

/-- The effect of handling one update: the caches afterwards, the values sent
on the outbound channel (in order), the synchronous calls (in order) and the
flow invoked, if any. -/
structure Step where
  f : Forwarder
  queue : List Chattable
  calls : List Call
  flow : Option Flow
deriving DecidableEq, Repr

/-- The reply `receive` sends for the return value of `container.add`
(the `switch c.add(...)`). -/
def addReply (chat : Int) (code : Nat) : Chattable :=
  if code = addFailed then NewMessage chat (lit "I'm sorry, but I cannot process that image.")
  else if code = addSuccess then .MessageConfig chat (lit "I've added that image!") true
  else if code = addIsNotImage then
    NewMessage chat
      (lit "I'm sorry, I couldn't get an image hash for that, but I tried to upload it as a video instead!")
  else .MessageConfig chat (lit "I've seen that image before.") true

/-- The reply `receive` sends for the return value of `container.delete`. -/
def deleteReply (chat : Int) (ok : Bool) : Chattable :=
  if ok then NewMessage chat (lit "I've removed that image! (if it existed!)")
  else NewMessage chat (lit "I'm sorry, but I cannot process that image.")

/-- The test `len(s) > 3 && s[0] == '/' && strings.HasPrefix(s, "/del")` that
`receive` applies to the text and to the caption of a media message. -/
def isDeleteHint (s : GoString) : Bool :=
  decide (s.length > 3) && decide (s.head? = some 47) && HasPrefix s (lit "/del")

/-- The caption resolution of `receive` (the `default:` arm before the call
of `c.add`): the text `s` handed to the add flow and the caches afterwards. -/
def resolveCaption (f : Forwarder) (now : Int) (msg : Message) (uid : Int) :
    GoString × Forwarder :=
  if msg.MediaGroupID.length > 0 then
    match f.groups.get msg.MediaGroupID false with
    | ((s, true), groups1) => (s, { f with groups := groups1 })
    | ((_, false), groups1) =>
      match f.caps.get uid true with
      | ((s, true), caps1) =>
        (s, { caps := caps1, groups := groups1.set now msg.MediaGroupID s })
      | ((s, false), caps1) =>
        if msg.Caption.length > 0 then
          (s, { caps := caps1, groups := groups1.set now msg.MediaGroupID msg.Caption })
        else (s, { caps := caps1, groups := groups1 })
  else
    match f.caps.get uid true with
    | ((s, true), caps1) => (s, { f with caps := caps1 })
    | ((_, false), caps1) => (msg.Caption, { f with caps := caps1 })

/-- One iteration of the `case n := <-r` arm of Go `container.receive`:
the handling of one update. `none` is the run-time panic of dereferencing a
`nil` `From` in a private chat. -/
def container.receive (c : container) (f : Forwarder) (io : StepWorld) (n : Update) :
    Option Step :=
  match n.Message with
  | none => some { f := f, queue := [], calls := [], flow := none }
  | some msg =>
    match msg.Chat with
    | none => some { f := f, queue := [], calls := [], flow := none }
    | some chat =>
      if !chat.IsPrivate then some { f := f, queue := [], calls := [], flow := none }
      else
        match msg.From with
        | none => none
        | some u =>
          if u.IsBot then some { f := f, queue := [], calls := [], flow := none }
          else if !c.isAuthorized u.ID then
            some { f := f, queue := [NewMessage chat.ID (lit "Sorry, I don't know you.")],
                   calls := [], flow := none }
          else
            let t := getTarget msg
            if t.1.length = 0 then
              if msg.Text.length = 0 then
                some { f := f, queue := [], calls := [], flow := none }
              else if HasPrefix msg.Text (lit "/del") then
                some { f := f,
                       queue := [NewMessage chat.ID
                         (lit "Use \"/delete\" with an image to delete it.")],
                       calls := [], flow := none }
              else if HasPrefix msg.Text (lit "/clear") then
                some { f := { f with caps := f.caps.clear u.ID },
                       queue := [NewMessage chat.ID (lit "Removed any current cached caption!")],
                       calls := [], flow := none }
              else
                some { f := { f with caps := f.caps.set io.now u.ID msg.Text },
                       queue := [], calls := [], flow := none }
            else if isDeleteHint msg.Text || isDeleteHint msg.Caption then
              let r := c.delete io.del t.1 t.2
              some { f := { f with caps := f.caps.clear u.ID },
                     queue := r.queue ++ [deleteReply chat.ID r.ret],
                     calls := r.calls, flow := some (.delete t.1 t.2) }
            else
              let s := resolveCaption f io.now msg u.ID
              let r := c.add io.add t.1 t.2 s.1
              some { f := s.2,
                     queue := r.queue ++ [addReply chat.ID r.ret],
                     calls := r.calls, flow := some (.add t.1 t.2 s.1) }

/-! ## The dedup store (`setupStatements`, database.go) -/

/-- One row of the table `Images`. -/
structure ImageRow where
  ImageID : Nat
  ImageHash : Nat
  ImageFileHash : GoString
  ImageBotID : Nat
  ImageMessageID : Nat
deriving DecidableEq, Repr

/-- The table `Images`: its rows, in the order in which a scan returns
them, and the `AUTO_INCREMENT` counter of `ImageID`. -/
structure Images where
  rows : List ImageRow
  auto : Nat
deriving DecidableEq, Repr

/-- The table right after `CREATE TABLE`. -/
def Images.empty : Images := { rows := [], auto := 1 }

/-- The statement `COALESCE((SELECT ImageHash FROM Images WHERE ImageHash =
Hash1 AND ImageBotID = BotID LIMIT 1), 0)` of `AddImage`; `LIMIT 1` takes the
first matching row. -/
def selectImageHash (t : Images) (Hash1 BotID : Nat) : Nat :=
  match t.rows.find? (fun r => decide (r.ImageHash = Hash1 ∧ r.ImageBotID = BotID)) with
  | some r => r.ImageHash
  | none => 0

/-- The stored procedure `AddImage(Hash1, Hash2, BotID, MessageID)`: the
value it selects (`@image_hash`) and the table afterwards. -/
def AddImage (t : Images) (Hash1 : Nat) (Hash2 : GoString) (BotID MessageID : Nat) :
    Nat × Images :=
  if selectImageHash t Hash1 BotID = 0 then
    (selectImageHash t Hash1 BotID,
      { rows := t.rows ++ [{ ImageID := t.auto, ImageHash := Hash1, ImageFileHash := Hash2,
                             ImageBotID := BotID, ImageMessageID := MessageID }],
        auto := t.auto + 1 })
  else (selectImageHash t Hash1 BotID, t)

/-- The statement `COALESCE((SELECT ImageMessageID FROM Images WHERE
ImageFileHash = Hash1 AND ImageBotID = BotID LIMIT 1), 0)` of `DeleteImage`. -/
def selectImageMessage (t : Images) (Hash1 : GoString) (BotID : Nat) : Nat :=
  match t.rows.find? (fun r => decide (r.ImageFileHash = Hash1 ∧ r.ImageBotID = BotID)) with
  | some r => r.ImageMessageID
  | none => 0

/-- The stored procedure `DeleteImage(Hash1, BotID)`: the value it selects
(`@image_message`) and the table afterwards. -/
def DeleteImage (t : Images) (Hash1 : GoString) (BotID : Nat) : Nat × Images :=
  if selectImageMessage t Hash1 BotID ≠ 0 then
    (selectImageMessage t Hash1 BotID,
      { t with rows := t.rows.filter (fun r =>
          !decide (r.ImageMessageID = selectImageMessage t Hash1 BotID ∧
                   r.ImageFileHash = Hash1 ∧ r.ImageBotID = BotID)) })
  else (selectImageMessage t Hash1 BotID, t)

/-- One call of a stored procedure. -/
inductive StoreOp where
  | add (Hash1 : Nat) (Hash2 : GoString) (BotID MessageID : Nat)
  | delete (Hash1 : GoString) (BotID : Nat)
deriving DecidableEq, Repr

/-- The table after one call. -/
def StoreOp.run (t : Images) : StoreOp → Images
  | .add h s b m => (AddImage t h s b m).2
  | .delete s b => (DeleteImage t s b).2

/-- The table after a sequence of calls on the empty table. -/
def runStore (ops : List StoreOp) : Images := ops.foldl StoreOp.run Images.empty

/-- The rows of the table with perceptual hash `h` and account `b`. -/
def Images.matching (t : Images) (h b : Nat) : List ImageRow :=
  t.rows.filter (fun r => decide (r.ImageHash = h ∧ r.ImageBotID = b))

/-! ## Classes of updates -/

/-- The update `n` carries message `msg`, sent in the private chat `chat` by
the user `u`, who is not a bot and is authorized on account `c`, and `msg`
has a media attachment (`getTarget` returns a non-empty file id): the updates
that reach the `switch` of `receive` that chooses between the delete and the
add flow. -/
def AuthorizedMedia (c : container) (n : Update) (msg : Message) (chat : Chat) (u : User) :
    Prop :=
  n.Message = some msg ∧ msg.Chat = some chat ∧ chat.IsPrivate = true ∧
  msg.From = some u ∧ u.IsBot = false ∧ c.isAuthorized u.ID = true ∧
  (getTarget msg).1 ≠ []

/-- An authorized media update that `receive` hands to the add flow: neither
its text nor its caption is a delete hint. -/
def AddEvent (c : container) (n : Update) (msg : Message) (chat : Chat) (u : User) : Prop :=
  AuthorizedMedia c n msg chat u ∧
  isDeleteHint msg.Text = false ∧ isDeleteHint msg.Caption = false

/-- An authorized media update that `receive` hands to the delete flow: its
text or its caption is a delete hint. -/
def DeleteEvent (c : container) (n : Update) (msg : Message) (chat : Chat) (u : User) : Prop :=
  AuthorizedMedia c n msg chat u ∧
  (isDeleteHint msg.Text || isDeleteHint msg.Caption) = true

/-- The update `n` carries message `msg`, sent in the private chat `chat` by
the user `u`, who is not a bot and whose id is not in the user list of
account `c`: the updates that reach the rejection arm of `receive`. -/
def UnauthorizedEvent (c : container) (n : Update) (msg : Message) (chat : Chat) (u : User) :
    Prop :=
  n.Message = some msg ∧ msg.Chat = some chat ∧ chat.IsPrivate = true ∧
  msg.From = some u ∧ u.IsBot = false ∧ u.ID ∉ c.users

/-- The update `n` carries message `msg`, sent in the private chat `chat` by
the user `u`, who is not a bot and whose id is in the user list of account
`c`, and `msg` has no media attachment (`getTarget` returns the empty file
id): the updates that reach the text `switch` of `receive`. -/
def AuthorizedText (c : container) (n : Update) (msg : Message) (chat : Chat) (u : User) :
    Prop :=
  n.Message = some msg ∧ msg.Chat = some chat ∧ chat.IsPrivate = true ∧
  msg.From = some u ∧ u.IsBot = false ∧ u.ID ∈ c.users ∧
  (getTarget msg).1 = []

/-! ## Span tilings -/

/-- The bytes on which the `switch` of `splitTags` acts: `'#'` and the break
characters. -/
def isCloser (b : Nat) : Bool := b == 35 || isBreak b

/-- The spans of `e`, in list order, tile `[lo, hi)`: the first starts at
`lo`, each has positive length, each starts exactly where the previous one
ends, and the last ends at `hi` (for no span at all: `lo = hi`). -/
def Tiling (lo hi : Int) : List MessageEntity → Prop
  | [] => lo = hi
  | a :: r => a.Offset = lo ∧ 0 < a.Length ∧ Tiling (a.Offset + a.Length) hi r

/-- The byte of `d` at offset `t` is `'#'` or a break character. -/
def closerAt (d : GoString) (t : Int) : Prop :=
  0 ≤ t ∧ ∃ b, d[t.toNat]? = some b ∧ isCloser b = true

/-! # Theorems -/

/-! ## Hashtag spans -/

theorem SpanChain.lo_le_hi {lo hi : Int} {e : List MessageEntity}
    (h : SpanChain lo hi e) : lo ≤ hi := by
  induction e generalizing lo with
  | nil => exact h
  | cons a r ih =>
    obtain ⟨h1, h2, h3⟩ := h
    have := ih h3
    omega

theorem SpanChain.mono_hi {lo hi hi2 : Int} {e : List MessageEntity}
    (h : SpanChain lo hi e) (hle : hi ≤ hi2) : SpanChain lo hi2 e := by
  induction e generalizing lo with
  | nil => exact le_trans h hle
  | cons a r ih => exact ⟨h.1, h.2.1, ih h.2.2⟩

theorem SpanChain.snoc {lo m hi t n : Int} {e : List MessageEntity}
    (h : SpanChain lo m e) (hm : m ≤ t) (hn : 0 < n) (hhi : t + n ≤ hi) :
    SpanChain lo hi (e ++ [hashtagEntity t n]) := by
  induction e generalizing lo with
  | nil =>
    have h0 : lo ≤ m := h
    exact ⟨le_trans h0 hm, hn, hhi⟩
  | cons a r ih => exact ⟨h.1, h.2.1, ih h.2.2⟩

theorem SpanChain.bounds {lo hi : Int} {e : List MessageEntity}
    (h : SpanChain lo hi e) :
    ∀ a ∈ e, lo ≤ a.Offset ∧ 0 < a.Length ∧ a.Offset + a.Length ≤ hi := by
  induction e generalizing lo with
  | nil => intro a ha; cases ha
  | cons b r ih =>
    obtain ⟨h1, h2, h3⟩ := h
    intro a ha
    rcases List.mem_cons.1 ha with rfl | ha
    · exact ⟨h1, h2, h3.lo_le_hi⟩
    · obtain ⟨k1, k2, k3⟩ := ih h3 a ha
      exact ⟨by omega, k2, k3⟩

theorem SpanChain.pairwise {lo hi : Int} {e : List MessageEntity}
    (h : SpanChain lo hi e) :
    e.Pairwise (fun a b => a.Offset < b.Offset ∧ a.Offset + a.Length ≤ b.Offset) := by
  induction e generalizing lo with
  | nil => exact List.Pairwise.nil
  | cons b r ih =>
    obtain ⟨_, h2, h3⟩ := h
    refine List.Pairwise.cons ?_ (ih h3)
    intro a ha
    have := (h3.bounds a ha).1
    exact ⟨by omega, this⟩

/-- Loop invariant of `splitTags`: either no span is open and none was
emitted, or the open span starts at an index already read and the emitted
spans form a chain ending no later than that start. -/
theorem splitTagsLoop_chain (rest : List Nat) (i t : Int) (e : List MessageEntity)
    (hi : 0 ≤ i)
    (h : (t = -1 ∧ e = []) ∨ (0 ≤ t ∧ t < i ∧ SpanChain 0 t e)) :
    ((splitTagsLoop rest i t e).1 = -1 ∧ (splitTagsLoop rest i t e).2 = []) ∨
    (0 ≤ (splitTagsLoop rest i t e).1 ∧
      (splitTagsLoop rest i t e).1 < i + rest.length ∧
      SpanChain 0 (splitTagsLoop rest i t e).1 (splitTagsLoop rest i t e).2) := by
  induction rest generalizing i t e with
  | nil =>
    simp only [splitTagsLoop, List.length_nil, Nat.cast_zero, add_zero]
    exact h
  | cons b rest ih =>
    have hlen : i + ((b :: rest).length : Int) = (i + 1) + (rest.length : Int) := by
      simp only [List.length_cons, Nat.cast_add, Nat.cast_one]; ring
    rw [hlen]
    have hi1 : (0 : Int) ≤ i + 1 := by omega
    -- the state after closing the open span at `i` and reopening there
    have hclose : ∀ (_ : t ≠ -1), 0 < i - t ∧
        ((i = -1 ∧ e ++ [hashtagEntity t (i - t)] = []) ∨
          (0 ≤ i ∧ i < i + 1 ∧ SpanChain 0 i (e ++ [hashtagEntity t (i - t)]))) := by
      intro ht
      rcases h with ⟨h1, _⟩ | ⟨h1, h2, h3⟩
      · exact absurd h1 ht
      · refine ⟨by omega, Or.inr ⟨hi, by omega, ?_⟩⟩
        exact h3.snoc (le_refl t) (by omega) (by omega)
    unfold splitTagsLoop
    by_cases hb : b = 35
    · rw [if_pos hb]
      by_cases ht : t = -1
      · rw [if_pos ht]
        refine ih (i + 1) i e hi1 (Or.inr ⟨hi, by omega, ?_⟩)
        rcases h with ⟨_, h2⟩ | ⟨h1, _, _⟩
        · subst h2; exact le_refl (0 : Int) |>.trans hi
        · omega
      · rw [if_neg ht]
        obtain ⟨hpos, hst⟩ := hclose ht
        rw [if_pos hpos]
        exact ih (i + 1) i _ hi1 hst
    · rw [if_neg hb]
      by_cases hk : isBreak b = true
      · rw [if_pos hk]
        by_cases ht : t = -1
        · rw [if_pos ht]
          refine ih (i + 1) t e hi1 ?_
          rcases h with h | ⟨h1, _, _⟩
          · exact Or.inl h
          · omega
        · rw [if_neg ht]
          obtain ⟨hpos, hst⟩ := hclose ht
          rw [if_pos hpos]
          exact ih (i + 1) i _ hi1 hst
      · rw [if_neg hk]
        refine ih (i + 1) t e hi1 ?_
        rcases h with h | ⟨h1, h2, h3⟩
        · exact Or.inl h
        · exact Or.inr ⟨h1, by omega, h3⟩

/-- The spans returned by `splitTags d` form a chain inside `[0, len(d)]`. -/
theorem splitTags_chain (d : GoString) : SpanChain 0 (d.length : Int) (splitTags d) := by
  have h := splitTagsLoop_chain d 0 (-1) [] (le_refl 0) (Or.inl ⟨rfl, rfl⟩)
  have hnn : (0 : Int) ≤ (d.length : Int) := Int.ofNat_nonneg _
  simp only [splitTags]
  rcases h with ⟨h1, h2⟩ | ⟨h1, h2, h3⟩
  · rw [if_neg (by omega), h2]
    exact hnn
  · by_cases hp : (splitTagsLoop d 0 (-1) []).1 > 0
    · rw [if_pos hp]
      exact h3.snoc (le_refl _) (by omega) (by omega)
    · rw [if_neg hp]
      exact h3.mono_hi (by omega)

/-- C1. For every caption `d` (any byte sequence), each span returned by
`splitTags d` has positive length and lies inside the caption
(`0 ≤ Offset`, `Offset + Length ≤ len(d)`), and for any two spans `a` before
`b` in the returned list, `a.Offset < b.Offset` and
`a.Offset + a.Length ≤ b.Offset` (strictly increasing offsets, no overlap). -/
theorem splitTags_spans_ordered_disjoint (d : GoString) :
    (∀ a ∈ splitTags d,
        0 < a.Length ∧ 0 ≤ a.Offset ∧ a.Offset + a.Length ≤ (d.length : Int)) ∧
    (splitTags d).Pairwise
      (fun a b => a.Offset < b.Offset ∧ a.Offset + a.Length ≤ b.Offset) := by
  refine ⟨fun a ha => ?_, (splitTags_chain d).pairwise⟩
  obtain ⟨h1, h2, h3⟩ := (splitTags_chain d).bounds a ha
  exact ⟨h2, h1, h3⟩

/-- C2 (evaluation). On the caption `"Look #cat here"` the code returns
two spans: `(5, 4)` over `#cat` and `(9, 5)` over the five bytes `" here"`
that follow it; the list is not the single span `(5, 4)`. Both spans are in
the media edit with which the add flow finalizes placeholder `9`. -/
theorem splitTags_look_cat_here :
    splitTags (lit "Look #cat here") = [hashtagEntity 5 4, hashtagEntity 9 5] ∧
    splitTags (lit "Look #cat here") ≠ [hashtagEntity 5 4] ∧
    ((lit "Look #cat here").drop 5).take 4 = lit "#cat" ∧
    ((lit "Look #cat here").drop 9).take 5 = lit " here" ∧
    (({ key := [], selfID := 1, recv := -100, users := [42] } : container).add
        { fetch := .hashed (lit "ab") 5, placeholder := some 9, query := some [some 0],
          edit := true } (lit "file") [] (lit "Look #cat here")).calls.getLast? =
      some (.Send (.EditMessageMediaConfig (-100) 9 (lit "file") (lit "Look #cat here")
        (lit "markdown")
        [{ Typ := lit "hashtag", Offset := 5, Length := 4 },
         { Typ := lit "hashtag", Offset := 9, Length := 5 }])) := by
  decide

/-! ## The caption caches -/

theorem mapLookup_eq_none_iff {T : Type} [DecidableEq T] (l : List (T × caption)) (k : T) :
    mapLookup l k = none ↔ ∀ e ∈ l, e.1 ≠ k := by
  induction l with
  | nil => simp [mapLookup]
  | cons e r ih =>
    unfold mapLookup
    by_cases h : e.1 = k
    · simp [h]
    · simp [h, ih]

theorem mapLookup_mapAssign_self {T : Type} [DecidableEq T] (l : List (T × caption)) (k : T)
    (c : caption) : mapLookup (mapAssign l k c) k = some c := by
  simp [mapAssign, mapLookup]

theorem mapLookup_mapDelete_self {T : Type} [DecidableEq T] (l : List (T × caption)) (k : T) :
    mapLookup (mapDelete l k) k = none := by
  rw [mapLookup_eq_none_iff]
  intro e he
  simpa [mapDelete] using (List.mem_filter.1 he).2

theorem mapDelete_absent {T : Type} [DecidableEq T] (l : List (T × caption)) (k k2 : T)
    (h : mapLookup l k = none) : mapLookup (mapDelete l k2) k = none := by
  rw [mapLookup_eq_none_iff] at h ⊢
  intro e he
  exact h e (List.mem_filter.1 he).1

theorem foldl_mapDelete_absent {T : Type} [DecidableEq T] (ks : List T) (l : List (T × caption))
    (k : T) (h : mapLookup l k = none) : mapLookup (ks.foldl mapDelete l) k = none := by
  induction ks generalizing l with
  | nil => exact h
  | cons a r ih => exact ih _ (mapDelete_absent l k a h)

/-- An operation that is not a `set` on `k` does not bind `k`. -/
theorem CacheOp.run_absent {T : Type} [DecidableEq T] (m : maps T) (op : CacheOp T) (k : T)
    (hop : op.setsKey k = false) (h : mapLookup m.v k = none) :
    mapLookup (CacheOp.run m op).v k = none := by
  cases op with
  | set now k2 s =>
    have hk : k2 ≠ k := by simpa [CacheOp.setsKey] using hop
    simp only [CacheOp.run, maps.set, mapAssign, mapLookup, if_neg hk]
    exact mapDelete_absent _ _ _ h
  | clear k2 => exact mapDelete_absent _ _ _ h
  | prune it n => exact foldl_mapDelete_absent _ _ _ h
  | get k2 del =>
    cases del with
    | false =>
      simp only [CacheOp.run, maps.get]
      cases mapLookup m.v k2 <;> simpa using h
    | true =>
      simp only [CacheOp.run, maps.get]
      cases mapLookup m.v k2 <;> exact mapDelete_absent _ _ _ h

theorem foldl_run_absent {T : Type} [DecidableEq T] (ops : List (CacheOp T)) (m : maps T) (k : T)
    (hops : ∀ op ∈ ops, op.setsKey k = false) (h : mapLookup m.v k = none) :
    mapLookup (ops.foldl CacheOp.run m).v k = none := by
  induction ops generalizing m with
  | nil => exact h
  | cons op r ih =>
    refine ih _ (fun o ho => hops o (List.mem_cons_of_mem _ ho)) ?_
    exact CacheOp.run_absent m op k (hops op (List.mem_cons_self _ _)) h

theorem maps.get_absent {T : Type} [DecidableEq T] (m : maps T) (k : T) (del : Bool)
    (h : mapLookup m.v k = none) : (m.get k del).1 = ([], false) := by
  simp [maps.get, h]

/-- C3. For every cache `m`, clock value `now`, key `k` and text `v`:
`get(k, true)` right after `set(k, v)` returns `(v, true)` and leaves no
entry under `k` (neither operation compares the entry's expiry with a clock:
`get` takes no time at all, and it returns `(v, true)` for an entry with any
expiry `t`); the next `get(k, del)` returns `("", false)`, and so does a
`get(k, del)` issued after any further operations `ops` none of which is a
`set` on `k`. -/
theorem cache_set_then_consume_once {T : Type} [DecidableEq T] (m : maps T) (now : Int) (k : T)
    (v : GoString) (ops : List (CacheOp T)) (del : Bool)
    (hops : ∀ op ∈ ops, op.setsKey k = false) :
    ((m.set now k v).get k true).1 = (v, true) ∧
    mapLookup ((m.set now k v).get k true).2.v k = none ∧
    (((m.set now k v).get k true).2.get k del).1 = ([], false) ∧
    ((ops.foldl CacheOp.run ((m.set now k v).get k true).2).get k del).1 = ([], false) ∧
    (∀ t : Int, ((⟨mapAssign m.v k { Tag := v, Time := t }⟩ : maps T).get k true).1
        = (v, true)) := by
  have h1 : mapLookup (m.set now k v).v k = some { Tag := v, Time := now + captionTimeout } :=
    mapLookup_mapAssign_self _ _ _
  have h2 : ((m.set now k v).get k true).2 = ⟨mapDelete (m.set now k v).v k⟩ := by
    simp [maps.get, h1]
  have h3 : mapLookup ((m.set now k v).get k true).2.v k = none := by
    rw [h2]; exact mapLookup_mapDelete_self _ _
  refine ⟨by simp [maps.get, h1], h3, maps.get_absent _ _ _ h3, ?_, ?_⟩
  · exact maps.get_absent _ _ _ (foldl_run_absent ops _ k hops h3)
  · intro t
    simp [maps.get, mapLookup_mapAssign_self]

/-- C3, at a concrete cache: key `7` is set over an older entry, consumed,
and stays absent across a `set` on another key, a `prune` and a `get`. -/
theorem cache_set_then_consume_once_witness :
    (((⟨[(7, ⟨lit "old", 5⟩), (8, ⟨lit "x", 9⟩)]⟩ : maps Int).set 100 7 (lit "new")).get 7 true).1
        = (lit "new", true) ∧
    ((List.foldl CacheOp.run
        (((⟨[(7, ⟨lit "old", 5⟩), (8, ⟨lit "x", 9⟩)]⟩ : maps Int).set 100 7 (lit "new")).get 7 true).2
        [CacheOp.set 101 8 (lit "y"), CacheOp.prune [] 0, CacheOp.get 7 false]).get 7 false).1
        = ([], false) :=
  have h := cache_set_then_consume_once
    (⟨[(7, ⟨lit "old", 5⟩), (8, ⟨lit "x", 9⟩)]⟩ : maps Int) 100 7 (lit "new")
    [CacheOp.set 101 8 (lit "y"), CacheOp.prune [] 0, CacheOp.get 7 false] false
    (by decide)
  ⟨h.1, h.2.2.2.1⟩

theorem foldl_mapDelete_eq_filter {T : Type} [DecidableEq T] (ks : List T)
    (l : List (T × caption)) :
    ks.foldl mapDelete l = l.filter (fun e => decide (e.1 ∉ ks)) := by
  induction ks generalizing l with
  | nil => simp
  | cons a r ih =>
    rw [List.foldl_cons, ih, mapDelete, List.filter_filter]
    apply List.filter_congr
    intro e _
    by_cases h1 : e.1 = a <;> by_cases h2 : e.1 ∈ r <;> simp [h1, h2]

theorem mem_pruneKeys {T : Type} (it : List (T × caption)) (n : Int) (k : T) :
    k ∈ pruneKeys it n ↔ ∃ e ∈ it, ¬ (e.2.Time > n) ∧ e.1 = k := by
  simp only [pruneKeys, List.mem_map, List.mem_filter, Bool.not_eq_true', decide_eq_false_iff_not]
  constructor
  · rintro ⟨e, ⟨h1, h2⟩, h3⟩; exact ⟨e, h1, h2, h3⟩
  · rintro ⟨e, h1, h2, h3⟩; exact ⟨e, ⟨h1, h2⟩, h3⟩

theorem prune_v_eq_filter {T : Type} [DecidableEq T] (m : maps T) (it : List (T × caption))
    (n : Int) (hwf : m.WF) (hit : it.Perm m.v) :
    (m.prune it n).v = m.v.filter (fun e => decide (e.2.Time > n)) := by
  simp only [maps.prune, foldl_mapDelete_eq_filter]
  apply List.filter_congr
  intro e he
  have hinj := List.inj_on_of_nodup_map hwf
  by_cases hl : e.2.Time > n
  · have : e.1 ∉ pruneKeys it n := by
      rw [mem_pruneKeys]
      rintro ⟨e2, h1, h2, h3⟩
      have : e2 = e := hinj (hit.mem_iff.1 h1) he h3
      subst this
      exact h2 hl
    simp [this, hl]
  · have : e.1 ∈ pruneKeys it n := by
      rw [mem_pruneKeys]
      exact ⟨e, hit.mem_iff.2 he, hl, rfl⟩
    simp [this, hl]

theorem mapLookup_filter_live {T : Type} [DecidableEq T] (l : List (T × caption)) (n : Int)
    (k : T) (hnd : (l.map Prod.fst).Nodup) :
    mapLookup (l.filter (fun e => decide (e.2.Time > n))) k =
      (mapLookup l k).filter (fun c => decide (c.Time > n)) := by
  induction l with
  | nil => simp [mapLookup]
  | cons e r ih =>
    rw [List.map_cons, List.nodup_cons] at hnd
    by_cases hk : e.1 = k
    · by_cases hl : e.2.Time > n
      · simp [List.filter_cons, mapLookup, hk, hl, Option.filter]
      · have hnone : mapLookup (r.filter (fun e => decide (e.2.Time > n))) k = none := by
          rw [mapLookup_eq_none_iff]
          intro e2 he2 h2
          exact hnd.1 (List.mem_map.2 ⟨e2, (List.mem_filter.1 he2).1, by rw [h2, hk]⟩)
        simp [List.filter_cons, mapLookup, hk, hl, Option.filter, hnone]
    · by_cases hl : e.2.Time > n
      · simp [List.filter_cons, mapLookup, hk, hl, ih hnd.2]
      · simp [List.filter_cons, mapLookup, hk, hl, ih hnd.2]

/-- C4. For every cache `m` (a map: no key bound twice), every time `n` and
every order `it` in which `range` may visit the entries: after `prune(n)` the
entries are exactly those of `m` whose `Time` is strictly after `n`, each
unchanged; a key whose entry has `Time ≤ n` (equality included) is unbound;
the result is still a map; and any other visiting order `it2` gives the same
result. -/
theorem prune_keeps_exactly_unexpired {T : Type} [DecidableEq T] (m : maps T)
    (it it2 : List (T × caption)) (n : Int)
    (hwf : m.WF) (hit : it.Perm m.v) (hit2 : it2.Perm m.v) :
    (m.prune it n).v = m.v.filter (fun e => decide (e.2.Time > n)) ∧
    (∀ k, mapLookup (m.prune it n).v k =
        (mapLookup m.v k).filter (fun c => decide (c.Time > n))) ∧
    (m.prune it n).WF ∧
    (m.prune it2 n).v = (m.prune it n).v := by
  have h1 := prune_v_eq_filter m it n hwf hit
  refine ⟨h1, fun k => ?_, ?_, ?_⟩
  · rw [h1]; exact mapLookup_filter_live m.v n k hwf
  · unfold maps.WF
    rw [h1]
    exact hwf.sublist ((List.filter_sublist _).map _)
  · rw [h1, prune_v_eq_filter m it2 n hwf hit2]

/-- C4, at a concrete cache with expiries `9`, `10`, `11` pruned at time
`10`, the entries visited in storage order and in reverse. -/
theorem prune_keeps_exactly_unexpired_witness :
    ((⟨[(1, ⟨lit "a", 9⟩), (2, ⟨lit "b", 10⟩), (3, ⟨lit "c", 11⟩)]⟩ : maps Int).prune
        [(1, ⟨lit "a", 9⟩), (2, ⟨lit "b", 10⟩), (3, ⟨lit "c", 11⟩)] 10).v
      = [(3, ⟨lit "c", 11⟩)] ∧
    ((⟨[(1, ⟨lit "a", 9⟩), (2, ⟨lit "b", 10⟩), (3, ⟨lit "c", 11⟩)]⟩ : maps Int).prune
        [(3, ⟨lit "c", 11⟩), (2, ⟨lit "b", 10⟩), (1, ⟨lit "a", 9⟩)] 10).v
      = [(3, ⟨lit "c", 11⟩)] :=
  have h := prune_keeps_exactly_unexpired
    (⟨[(1, ⟨lit "a", 9⟩), (2, ⟨lit "b", 10⟩), (3, ⟨lit "c", 11⟩)]⟩ : maps Int)
    [(1, ⟨lit "a", 9⟩), (2, ⟨lit "b", 10⟩), (3, ⟨lit "c", 11⟩)]
    [(3, ⟨lit "c", 11⟩), (2, ⟨lit "b", 10⟩), (1, ⟨lit "a", 9⟩)] 10
    (by unfold maps.WF; decide) (List.Perm.refl _) (by decide)
  ⟨h.1.trans (by decide), h.2.2.2.trans (h.1.trans (by decide))⟩

/-! ## Authorization -/

theorem isAuthorizedLoop_iff (u : Int) (l : List Int) :
    isAuthorizedLoop u l = true ↔ u ∈ l := by
  induction l with
  | nil => simp [isAuthorizedLoop]
  | cons x r ih =>
    unfold isAuthorizedLoop
    by_cases h : u = x
    · simp [h]
    · simp [h, ih]

/-- C5. For every account `c` and user id `u`, `isAuthorized(u)` is true
exactly when `u` occurs in `c.users`; with an empty user list it is false
for every `u`. -/
theorem isAuthorized_iff_mem_users (c : container) (u : Int) :
    (c.isAuthorized u = true ↔ u ∈ c.users) ∧
    ({ c with users := [] } : container).isAuthorized u = false :=
  ⟨isAuthorizedLoop_iff u c.users, rfl⟩

/-! ## Dispatch of media updates -/

theorem mapDelete_of_absent {T : Type} [DecidableEq T] (l : List (T × caption)) (k : T)
    (h : mapLookup l k = none) : mapDelete l k = l := by
  rw [mapLookup_eq_none_iff] at h
  unfold mapDelete
  rw [List.filter_eq_self]
  intro e he
  simpa using h e he

/-- What `receive` does with an update of the add class. -/
theorem receive_add_event (c : container) (f : Forwarder) (io : StepWorld) (n : Update)
    (msg : Message) (chat : Chat) (u : User) (h : AddEvent c n msg chat u) :
    c.receive f io n = some
      { f := (resolveCaption f io.now msg u.ID).2,
        queue := (c.add io.add (getTarget msg).1 (getTarget msg).2
                    (resolveCaption f io.now msg u.ID).1).queue ++
                 [addReply chat.ID (c.add io.add (getTarget msg).1 (getTarget msg).2
                    (resolveCaption f io.now msg u.ID).1).ret],
        calls := (c.add io.add (getTarget msg).1 (getTarget msg).2
                    (resolveCaption f io.now msg u.ID).1).calls,
        flow := some (.add (getTarget msg).1 (getTarget msg).2
                    (resolveCaption f io.now msg u.ID).1) } := by
  obtain ⟨⟨hm, hc, hp, hu, hb, ha, ht⟩, hd1, hd2⟩ := h
  have hl : ¬ ((getTarget msg).1.length = 0) := by
    intro h0; exact ht (List.length_eq_zero.1 h0)
  simp only [container.receive, hm, hc, hp, hu, hb, ha, hd1, hd2, hl, Bool.not_true,
    Bool.false_eq_true, if_false, Bool.or_self]

/-- What `receive` does with an update of the delete class. -/
theorem receive_delete_event (c : container) (f : Forwarder) (io : StepWorld) (n : Update)
    (msg : Message) (chat : Chat) (u : User) (h : DeleteEvent c n msg chat u) :
    c.receive f io n = some
      { f := { f with caps := f.caps.clear u.ID },
        queue := (c.delete io.del (getTarget msg).1 (getTarget msg).2).queue ++
                 [deleteReply chat.ID (c.delete io.del (getTarget msg).1 (getTarget msg).2).ret],
        calls := (c.delete io.del (getTarget msg).1 (getTarget msg).2).calls,
        flow := some (.delete (getTarget msg).1 (getTarget msg).2) } := by
  obtain ⟨⟨hm, hc, hp, hu, hb, ha, ht⟩, hd⟩ := h
  have hl : ¬ ((getTarget msg).1.length = 0) := by
    intro h0; exact ht (List.length_eq_zero.1 h0)
  simp only [container.receive, hm, hc, hp, hu, hb, ha, hd, hl, Bool.not_true,
    Bool.false_eq_true, if_false, if_true]

/-- The caption resolution for a media group with no cached group caption
and no pending caption of the sender. -/
theorem resolveCaption_group_fallback (f : Forwarder) (now : Int) (msg : Message) (uid : Int)
    (hg : msg.MediaGroupID ≠ [])
    (hgc : mapLookup f.groups.v msg.MediaGroupID = none)
    (hcc : mapLookup f.caps.v uid = none) :
    resolveCaption f now msg uid =
      if msg.Caption.length > 0 then
        ([], { caps := f.caps, groups := f.groups.set now msg.MediaGroupID msg.Caption })
      else ([], f) := by
  have hlen : msg.MediaGroupID.length > 0 := List.length_pos.2 hg
  have hcaps : (⟨mapDelete f.caps.v uid⟩ : maps Int) = f.caps := by
    rw [mapDelete_of_absent _ _ hcc]
  simp only [resolveCaption, hlen, if_true, maps.get, hgc, hcc, Bool.false_eq_true, if_false,
    hcaps]

/-! ## Media-group fallback -/

/-- C6 (counterexample). An authorized user sends a photo in media group
`g1` with an empty caption while both caches are empty: the add flow gets the
empty text, and afterwards the group cache has no entry under `g1` (a `get`
reports `("", false)`), so it does not hold the resolved text. -/
theorem group_fallback_empty_caption_not_cached :
    ∃ st, ({ key := [], selfID := 1, recv := -100, users := [42] } : container).receive
        { caps := ⟨[]⟩, groups := ⟨[]⟩ }
        { now := 1000,
          add := { fetch := .hashed (lit "ab") 5, placeholder := some 9,
                   query := some [some 0], edit := true },
          del := { fetch := .getFileError, query := none } }
        ⟨some { Chat := some ⟨42, lit "private"⟩, From := some ⟨42, false⟩, Text := [],
                Caption := [], MediaGroupID := lit "g1", Photo := [⟨lit "file", 10⟩],
                Video := none, Animation := none, Document := none }⟩ = some st ∧
      st.flow = some (.add (lit "file") [] []) ∧
      mapLookup st.f.groups.v (lit "g1") = none ∧
      (st.f.groups.get (lit "g1") false).1 = ([], false) :=
  ⟨_, rfl, by decide, by decide, by decide⟩

/-- C6 (the group branch with a non-empty caption, evaluated). The same
event with caption `"hello"`: the group cache then holds `"hello"` under
`g1`, while the text handed to the add flow, and put on the published
picture, is the empty text. -/
theorem group_fallback_nonempty_caption_evaluated :
    ∃ st, ({ key := [], selfID := 1, recv := -100, users := [42] } : container).receive
        { caps := ⟨[]⟩, groups := ⟨[]⟩ }
        { now := 1000,
          add := { fetch := .hashed (lit "ab") 5, placeholder := some 9,
                   query := some [some 0], edit := true },
          del := { fetch := .getFileError, query := none } }
        ⟨some { Chat := some ⟨42, lit "private"⟩, From := some ⟨42, false⟩, Text := [],
                Caption := lit "hello", MediaGroupID := lit "g1",
                Photo := [⟨lit "file", 10⟩],
                Video := none, Animation := none, Document := none }⟩ = some st ∧
      st.flow = some (.add (lit "file") [] []) ∧
      mapLookup st.f.groups.v (lit "g1") =
        some { Tag := lit "hello", Time := 1000 + captionTimeout } :=
  ⟨_, rfl, by decide, by decide⟩

/-- C6 (amended). For an update of the add class that carries a media-group
id `g`, when the group cache has no entry for `g` and the sender has no
pending caption: the update is handled, the pending-caption cache is
unchanged, and
* if the event's caption is non-empty, the group cache afterwards holds that
  caption under `g`, expiring `captionTimeout` after the clock value;
* if the event's caption is empty, the add flow gets the empty text and the
  group cache is unchanged, so it still has no entry for `g`. -/
theorem group_fallback_caches (c : container) (f : Forwarder) (io : StepWorld) (n : Update)
    (msg : Message) (chat : Chat) (u : User)
    (h : AddEvent c n msg chat u)
    (hg : msg.MediaGroupID ≠ [])
    (hgc : mapLookup f.groups.v msg.MediaGroupID = none)
    (hcc : mapLookup f.caps.v u.ID = none) :
    ∃ st, c.receive f io n = some st ∧
      st.f.caps = f.caps ∧
      (msg.Caption ≠ [] →
        mapLookup st.f.groups.v msg.MediaGroupID =
          some { Tag := msg.Caption, Time := io.now + captionTimeout }) ∧
      (msg.Caption = [] →
        st.flow = some (.add (getTarget msg).1 (getTarget msg).2 []) ∧
        st.f.groups = f.groups ∧
        mapLookup st.f.groups.v msg.MediaGroupID = none) := by
  refine ⟨_, receive_add_event c f io n msg chat u h, ?_, ?_, ?_⟩
  · simp only [resolveCaption_group_fallback f io.now msg u.ID hg hgc hcc]
    split <;> rfl
  · intro hc
    have hlen : msg.Caption.length > 0 := List.length_pos.2 hc
    simp only [resolveCaption_group_fallback f io.now msg u.ID hg hgc hcc, hlen, if_true]
    exact mapLookup_mapAssign_self _ _ _
  · intro hc
    have hlen : ¬ (msg.Caption.length > 0) := by simp [hc]
    simp only [resolveCaption_group_fallback f io.now msg u.ID hg hgc hcc, hlen, if_false]
    exact ⟨trivial, trivial, hgc⟩

/-- C6 (amended), at a concrete event: a photo with caption `"hello"` in
media group `g1`, both caches holding entries for other keys only. -/
theorem group_fallback_caches_witness :
    ∃ st, ({ key := [], selfID := 1, recv := -100, users := [42] } : container).receive
        { caps := ⟨[(43, ⟨lit "other", 7⟩)]⟩, groups := ⟨[(lit "g0", ⟨lit "x", 7⟩)]⟩ }
        { now := 1000,
          add := { fetch := .hashed (lit "ab") 5, placeholder := some 9,
                   query := some [some 0], edit := true },
          del := { fetch := .getFileError, query := none } }
        ⟨some { Chat := some ⟨42, lit "private"⟩, From := some ⟨42, false⟩, Text := [],
                Caption := lit "hello", MediaGroupID := lit "g1",
                Photo := [⟨lit "file", 10⟩],
                Video := none, Animation := none, Document := none }⟩ = some st ∧
      st.f.caps = ⟨[(43, ⟨lit "other", 7⟩)]⟩ ∧
      mapLookup st.f.groups.v (lit "g1") =
        some { Tag := lit "hello", Time := 1000 + captionTimeout } :=
  have h := group_fallback_caches
    ({ key := [], selfID := 1, recv := -100, users := [42] } : container)
    { caps := ⟨[(43, ⟨lit "other", 7⟩)]⟩, groups := ⟨[(lit "g0", ⟨lit "x", 7⟩)]⟩ }
    { now := 1000,
      add := { fetch := .hashed (lit "ab") 5, placeholder := some 9,
               query := some [some 0], edit := true },
      del := { fetch := .getFileError, query := none } }
    ⟨some { Chat := some ⟨42, lit "private"⟩, From := some ⟨42, false⟩, Text := [],
            Caption := lit "hello", MediaGroupID := lit "g1",
            Photo := [⟨lit "file", 10⟩],
            Video := none, Animation := none, Document := none }⟩
    { Chat := some ⟨42, lit "private"⟩, From := some ⟨42, false⟩, Text := [],
      Caption := lit "hello", MediaGroupID := lit "g1",
      Photo := [⟨lit "file", 10⟩],
      Video := none, Animation := none, Document := none }
    ⟨42, lit "private"⟩ ⟨42, false⟩
    (by unfold AddEvent AuthorizedMedia; decide) (by decide) (by decide) (by decide)
  h.imp (fun _ hs => ⟨hs.1, hs.2.1, hs.2.2.1 (by decide)⟩)

/-! ## The add flow -/

/-- The add flow once the picture is fingerprinted and the placeholder `p`
is sent, by outcome of the query, the row scan and the media edit. -/
theorem add_after_placeholder (c : container) (io : AddWorld) (v m d : GoString) (i : fileData)
    (p : Int) (hload : loadImage io.fetch v m = (i, none)) (hp : io.placeholder = some p) :
    c.add io v m d =
      match io.query with
      | none =>
        { ret := addFailed, queue := [NewDeleteMessage c.recv p],
          calls := [.Send (placeholderPhoto c i), .QueryAdd i.Average i.Sum c.selfID p] }
      | some rows =>
        if (scanRows rows 0).2 then
          { ret := addFailed, queue := [NewDeleteMessage c.recv p],
            calls := [.Send (placeholderPhoto c i), .QueryAdd i.Average i.Sum c.selfID p] }
        else if (scanRows rows 0).1 ≠ 0 then
          { ret := addAlreadyExists, queue := [NewDeleteMessage c.recv p],
            calls := [.Send (placeholderPhoto c i), .QueryAdd i.Average i.Sum c.selfID p] }
        else if io.edit then
          { ret := addSuccess, queue := [],
            calls := [.Send (placeholderPhoto c i), .QueryAdd i.Average i.Sum c.selfID p,
                      .Send (mediaEdit c i p d)] }
        else
          { ret := addFailed, queue := [NewDeleteMessage c.recv p],
            calls := [.Send (placeholderPhoto c i), .QueryAdd i.Average i.Sum c.selfID p,
                      .Send (mediaEdit c i p d)] } := by
  simp only [container.add, hload, hp]
  cases io.query with
  | none => rfl
  | some rows => simp only [List.cons_append, List.nil_append]

/-- C7. In the add flow, once the picture is fingerprinted and a placeholder
with message id `p` is sent, whatever the store query, the row scan and the
media edit do: either `add` returns `addSuccess` and enqueues nothing (so no
delete-message action), or it returns another code and enqueues exactly one
action, the delete-message action for `(c.recv, p)`. It returns `addSuccess`
exactly when the query and the scan succeed with value zero and the edit
succeeds. -/
theorem add_placeholder_finalized_or_deleted (c : container) (io : AddWorld) (v m d : GoString)
    (i : fileData) (p : Int)
    (hload : loadImage io.fetch v m = (i, none)) (hp : io.placeholder = some p) :
    (((c.add io v m d).ret = addSuccess ∧ (c.add io v m d).queue = []) ∨
      ((c.add io v m d).ret ≠ addSuccess ∧
        (c.add io v m d).queue = [NewDeleteMessage c.recv p])) ∧
    ((c.add io v m d).ret = addSuccess ↔
      ∃ rows, io.query = some rows ∧ scanRows rows 0 = (0, false) ∧ io.edit = true) := by
  rw [add_after_placeholder c io v m d i p hload hp]
  cases hq : io.query with
  | none => simp [addFailed, addSuccess]
  | some rows =>
    simp only [Option.some.injEq, exists_eq_left', Prod.ext_iff]
    by_cases herr : (scanRows rows 0).2 = true
    · rw [if_pos herr]
      simp [addFailed, addSuccess, herr]
    · rw [if_neg herr]
      by_cases he : (scanRows rows 0).1 ≠ 0
      · rw [if_pos he]
        simp [addAlreadyExists, addSuccess, he]
      · rw [if_neg he]
        have he0 : (scanRows rows 0).1 = 0 := not_not.1 he
        by_cases hed : io.edit = true
        · rw [if_pos hed]
          simp [addSuccess, he0, herr, hed]
        · rw [if_neg hed]
          simp [addFailed, addSuccess, hed]

/-- C7, at concrete outcomes: the store reports a duplicate (the delete of
placeholder `9` is the one action enqueued). -/
theorem add_placeholder_finalized_or_deleted_witness :
    (({ key := [], selfID := 1, recv := -100, users := [42] } : container).add
        { fetch := .hashed (lit "ab") 5, placeholder := some 9, query := some [some 5],
          edit := true } (lit "file") [] (lit "hi")).ret ≠ addSuccess ∧
    (({ key := [], selfID := 1, recv := -100, users := [42] } : container).add
        { fetch := .hashed (lit "ab") 5, placeholder := some 9, query := some [some 5],
          edit := true } (lit "file") [] (lit "hi")).queue = [NewDeleteMessage (-100) 9] :=
  have h := (add_placeholder_finalized_or_deleted
    ({ key := [], selfID := 1, recv := -100, users := [42] } : container)
    { fetch := .hashed (lit "ab") 5, placeholder := some 9, query := some [some 5],
      edit := true } (lit "file") [] (lit "hi")
    { Sum := lit "ab", FileID := lit "file", Average := 5 } 9 (by decide) rfl).1
  h.elim (fun hs => absurd hs.1 (by decide)) (fun hf => hf)

/-- C8. For an update of the add class whose picture is fingerprinted, whose
placeholder `p` is sent and whose store query and row scan succeed:
* if the store returns a nonzero value, `add` returns `addAlreadyExists`
  (for any caption), the only synchronous calls are the placeholder send and
  the query (no media edit), and the actions enqueued are the delete of the
  placeholder followed by the reply `"I've seen that image before."`;
* if the store returns zero and the edit succeeds, `add` returns
  `addSuccess` and the one action enqueued is the reply
  `"I've added that image!"`.
The code `addAlreadyExists` differs from `addFailed`, `addIsNotImage` and
`addSuccess`. -/
theorem duplicate_and_new_replies (c : container) (f : Forwarder) (io : StepWorld) (n : Update)
    (msg : Message) (chat : Chat) (u : User) (i : fileData) (p : Int)
    (rows : List (Option Nat))
    (h : AddEvent c n msg chat u)
    (hload : loadImage io.add.fetch (getTarget msg).1 (getTarget msg).2 = (i, none))
    (hp : io.add.placeholder = some p)
    (hq : io.add.query = some rows)
    (hs : (scanRows rows 0).2 = false) :
    ∃ st, c.receive f io n = some st ∧
      ((scanRows rows 0).1 ≠ 0 →
        (∀ d, (c.add io.add (getTarget msg).1 (getTarget msg).2 d).ret = addAlreadyExists) ∧
        st.calls = [.Send (placeholderPhoto c i), .QueryAdd i.Average i.Sum c.selfID p] ∧
        st.calls.any Call.isEdit = false ∧
        st.queue = [NewDeleteMessage c.recv p,
          .MessageConfig chat.ID (lit "I've seen that image before.") true]) ∧
      ((scanRows rows 0).1 = 0 → io.add.edit = true →
        (∀ d, (c.add io.add (getTarget msg).1 (getTarget msg).2 d).ret = addSuccess) ∧
        st.queue = [.MessageConfig chat.ID (lit "I've added that image!") true]) ∧
      addAlreadyExists ≠ addFailed ∧ addAlreadyExists ≠ addIsNotImage ∧
      addAlreadyExists ≠ addSuccess := by
  have hdup : (scanRows rows 0).1 ≠ 0 → ∀ d,
      c.add io.add (getTarget msg).1 (getTarget msg).2 d =
        { ret := addAlreadyExists, queue := [NewDeleteMessage c.recv p],
          calls := [.Send (placeholderPhoto c i), .QueryAdd i.Average i.Sum c.selfID p] } := by
    intro he d
    rw [add_after_placeholder c io.add _ _ d i p hload hp]
    simp only [hq]
    rw [if_neg (by simp [hs]), if_pos he]
  have hnew : (scanRows rows 0).1 = 0 → io.add.edit = true → ∀ d,
      c.add io.add (getTarget msg).1 (getTarget msg).2 d =
        { ret := addSuccess, queue := [],
          calls := [.Send (placeholderPhoto c i), .QueryAdd i.Average i.Sum c.selfID p,
                    .Send (mediaEdit c i p d)] } := by
    intro he hed d
    rw [add_after_placeholder c io.add _ _ d i p hload hp]
    simp only [hq]
    rw [if_neg (by simp [hs]), if_neg (by simp [he]), if_pos hed]
  refine ⟨_, receive_add_event c f io n msg chat u h, ?_, ?_, by decide, by decide, by decide⟩
  · intro he
    refine ⟨fun d => by rw [hdup he d], ?_, ?_, ?_⟩
    · simp only [hdup he]
    · simp only [hdup he]
      rfl
    · simp only [hdup he]
      rfl
  · intro he hed
    refine ⟨fun d => by rw [hnew he hed d], ?_⟩
    simp only [hnew he hed]
    rfl

/-- C8, at concrete events: the store answers `5` (duplicate), then `0`
with a successful edit (new picture). -/
theorem duplicate_and_new_replies_witness :
    (∃ st, ({ key := [], selfID := 1, recv := -100, users := [42] } : container).receive
        { caps := ⟨[]⟩, groups := ⟨[]⟩ }
        { now := 1000,
          add := { fetch := .hashed (lit "ab") 5, placeholder := some 9,
                   query := some [some 5], edit := true },
          del := { fetch := .getFileError, query := none } }
        ⟨some { Chat := some ⟨42, lit "private"⟩, From := some ⟨42, false⟩, Text := [],
                Caption := lit "hello", MediaGroupID := [], Photo := [⟨lit "file", 10⟩],
                Video := none, Animation := none, Document := none }⟩ = some st ∧
      st.queue = [NewDeleteMessage (-100) 9,
        .MessageConfig 42 (lit "I've seen that image before.") true]) ∧
    (∃ st, ({ key := [], selfID := 1, recv := -100, users := [42] } : container).receive
        { caps := ⟨[]⟩, groups := ⟨[]⟩ }
        { now := 1000,
          add := { fetch := .hashed (lit "ab") 5, placeholder := some 9,
                   query := some [some 0], edit := true },
          del := { fetch := .getFileError, query := none } }
        ⟨some { Chat := some ⟨42, lit "private"⟩, From := some ⟨42, false⟩, Text := [],
                Caption := lit "hello", MediaGroupID := [], Photo := [⟨lit "file", 10⟩],
                Video := none, Animation := none, Document := none }⟩ = some st ∧
      st.queue = [.MessageConfig 42 (lit "I've added that image!") true]) :=
  ⟨(duplicate_and_new_replies
      ({ key := [], selfID := 1, recv := -100, users := [42] } : container)
      { caps := ⟨[]⟩, groups := ⟨[]⟩ }
      { now := 1000,
        add := { fetch := .hashed (lit "ab") 5, placeholder := some 9,
                 query := some [some 5], edit := true },
        del := { fetch := .getFileError, query := none } }
      ⟨some { Chat := some ⟨42, lit "private"⟩, From := some ⟨42, false⟩, Text := [],
              Caption := lit "hello", MediaGroupID := [], Photo := [⟨lit "file", 10⟩],
              Video := none, Animation := none, Document := none }⟩
      { Chat := some ⟨42, lit "private"⟩, From := some ⟨42, false⟩, Text := [],
        Caption := lit "hello", MediaGroupID := [], Photo := [⟨lit "file", 10⟩],
        Video := none, Animation := none, Document := none }
      ⟨42, lit "private"⟩ ⟨42, false⟩
      { Sum := lit "ab", FileID := lit "file", Average := 5 } 9 [some 5]
      (by unfold AddEvent AuthorizedMedia; decide) (by decide) rfl rfl (by decide)).imp
      (fun _ hs => ⟨hs.1, (hs.2.1 (by decide)).2.2.2⟩),
   (duplicate_and_new_replies
      ({ key := [], selfID := 1, recv := -100, users := [42] } : container)
      { caps := ⟨[]⟩, groups := ⟨[]⟩ }
      { now := 1000,
        add := { fetch := .hashed (lit "ab") 5, placeholder := some 9,
                 query := some [some 0], edit := true },
        del := { fetch := .getFileError, query := none } }
      ⟨some { Chat := some ⟨42, lit "private"⟩, From := some ⟨42, false⟩, Text := [],
              Caption := lit "hello", MediaGroupID := [], Photo := [⟨lit "file", 10⟩],
              Video := none, Animation := none, Document := none }⟩
      { Chat := some ⟨42, lit "private"⟩, From := some ⟨42, false⟩, Text := [],
        Caption := lit "hello", MediaGroupID := [], Photo := [⟨lit "file", 10⟩],
        Video := none, Animation := none, Document := none }
      ⟨42, lit "private"⟩ ⟨42, false⟩
      { Sum := lit "ab", FileID := lit "file", Average := 5 } 9 [some 0]
      (by unfold AddEvent AuthorizedMedia; decide) (by decide) rfl rfl (by decide)).imp
      (fun _ hs => ⟨hs.1, (hs.2.2.1 (by decide) rfl).2⟩)⟩

/-! ## The dedup store -/

/-- C9 (evaluation at the failing input). On the empty table, two calls
`AddImage(0, "a", 1, _)` with the same perceptual hash `0` and account `1`
both select `0` ("newly inserted") and both insert: the table then holds two
records with `(ImageHash, ImageBotID) = (0, 1)`. -/
theorem store_zero_hash_inserted_twice :
    (AddImage Images.empty 0 (lit "a") 1 10).1 = 0 ∧
    (AddImage (AddImage Images.empty 0 (lit "a") 1 10).2 0 (lit "a") 1 11).1 = 0 ∧
    ((runStore [.add 0 (lit "a") 1 10, .add 0 (lit "a") 1 11]).matching 0 1).length = 2 ∧
    (runStore [.add 0 (lit "a") 1 10, .add 0 (lit "a") 1 11]).rows =
      [{ ImageID := 1, ImageHash := 0, ImageFileHash := lit "a", ImageBotID := 1,
         ImageMessageID := 10 },
       { ImageID := 2, ImageHash := 0, ImageFileHash := lit "a", ImageBotID := 1,
         ImageMessageID := 11 }] := by
  decide

theorem selectImageHash_eq_zero_or (t : Images) (h b : Nat) :
    (selectImageHash t h b = 0 ∧ (h ≠ 0 → t.matching h b = [])) ∨
    (selectImageHash t h b = h ∧ t.matching h b ≠ []) := by
  unfold selectImageHash Images.matching
  cases hf : t.rows.find? (fun r => decide (r.ImageHash = h ∧ r.ImageBotID = b)) with
  | none =>
    refine Or.inl ⟨rfl, fun _ => ?_⟩
    rw [List.find?_eq_none] at hf
    exact List.filter_eq_nil_iff.2 hf
  | some r =>
    have hp := List.find?_some hf
    have hmem := List.mem_of_find?_eq_some hf
    have hr : r.ImageHash = h := (of_decide_eq_true hp).1
    by_cases h0 : h = 0
    · refine Or.inl ⟨by simp [hr, h0], fun hne => absurd h0 hne⟩
    · refine Or.inr ⟨hr, ?_⟩
      intro hnil
      have : r ∈ t.rows.filter (fun r => decide (r.ImageHash = h ∧ r.ImageBotID = b)) :=
        List.mem_filter.2 ⟨hmem, hp⟩
      rw [hnil] at this
      cases this

/-- `AddImage` keeps "at most one record" for every nonzero hash. -/
theorem AddImage_unique (t : Images) (h1 : Nat) (s : GoString) (b1 m : Nat)
    (hinv : ∀ h b, h ≠ 0 → (t.matching h b).length ≤ 1) :
    ∀ h b, h ≠ 0 → ((AddImage t h1 s b1 m).2.matching h b).length ≤ 1 := by
  intro h b hh
  unfold AddImage
  by_cases hz : selectImageHash t h1 b1 = 0
  · rw [if_pos hz]
    simp only [Images.matching, List.filter_append, List.length_append]
    by_cases hm : h1 = h ∧ b1 = b
    · obtain ⟨rfl, rfl⟩ := hm
      rcases selectImageHash_eq_zero_or t h1 b1 with ⟨_, hnil⟩ | ⟨hv, _⟩
      · have hrows := hnil hh
        simp only [Images.matching] at hrows
        rw [hrows, List.length_nil, zero_add]
        exact List.length_filter_le _ _
      · exact absurd (hv.symm.trans hz) hh
    · have hrows := hinv h b hh
      simp only [Images.matching] at hrows
      have hnone : List.filter (fun r => decide (r.ImageHash = h ∧ r.ImageBotID = b))
          [({ ImageID := t.auto, ImageHash := h1, ImageFileHash := s, ImageBotID := b1,
              ImageMessageID := m } : ImageRow)] = [] := by
        rw [List.filter_eq_nil_iff]
        intro a ha
        rw [List.mem_singleton] at ha
        subst ha
        simpa using hm
      rw [hnone, List.length_nil, add_zero]
      exact hrows
  · rw [if_neg hz]
    exact hinv h b hh

/-- `DeleteImage` only removes rows. -/
theorem DeleteImage_unique (t : Images) (s : GoString) (b1 : Nat)
    (hinv : ∀ h b, h ≠ 0 → (t.matching h b).length ≤ 1) :
    ∀ h b, h ≠ 0 → ((DeleteImage t s b1).2.matching h b).length ≤ 1 := by
  intro h b hh
  unfold DeleteImage
  by_cases hz : selectImageMessage t s b1 ≠ 0
  · rw [if_pos hz]
    refine le_trans ?_ (hinv h b hh)
    simp only [Images.matching]
    exact ((List.filter_sublist _).filter _).length_le
  · rw [if_neg hz]
    exact hinv h b hh

theorem foldl_run_unique (ops : List StoreOp) (t : Images)
    (hinv : ∀ h b, h ≠ 0 → (t.matching h b).length ≤ 1) :
    ∀ h b, h ≠ 0 → ((ops.foldl StoreOp.run t).matching h b).length ≤ 1 := by
  induction ops generalizing t with
  | nil => exact hinv
  | cons op r ih =>
    refine ih _ ?_
    cases op with
    | add h1 s b1 m => exact AddImage_unique t h1 s b1 m hinv
    | delete s b1 => exact DeleteImage_unique t s b1 hinv

/-- C9 (what does hold). After any sequence of `AddImage` and `DeleteImage`
calls on the empty table, for every nonzero perceptual hash `h` and account
`b` the table holds at most one record with `(ImageHash, ImageBotID) =
(h, b)`. -/
theorem store_unique_for_nonzero_hash (ops : List StoreOp) (h b : Nat) (hh : h ≠ 0) :
    ((runStore ops).matching h b).length ≤ 1 :=
  foldl_run_unique ops Images.empty (fun _ _ _ => by simp [Images.matching, Images.empty]) h b hh

/-- C9 (what does hold), at a concrete sequence: hash `5` added twice for
account `1`. -/
theorem store_unique_for_nonzero_hash_witness :
    ((runStore [.add 5 (lit "a") 1 10, .add 5 (lit "a") 1 11]).matching 5 1).length ≤ 1 :=
  store_unique_for_nonzero_hash [.add 5 (lit "a") 1 10, .add 5 (lit "a") 1 11] 5 1 (by decide)

/-! ## The delete flow -/

/-- The delete flow, by outcome of the fingerprinting, the query and the
row scan. -/
theorem delete_after_fingerprint (c : container) (io : DeleteWorld) (v m : GoString)
    (i : fileData) (rows : List (Option Nat))
    (hload : loadImage io.fetch v m = (i, none)) (hq : io.query = some rows)
    (hs : (scanRows rows 0).2 = false) :
    c.delete io v m =
      { ret := true,
        queue := if (scanRows rows 0).1 ≠ 0
          then [NewDeleteMessage c.recv (intOfUint64 (scanRows rows 0).1)] else [],
        calls := [.QueryDelete i.Sum c.selfID] } := by
  simp only [container.delete, hload, hq]
  rw [if_neg (by simp [hs])]
  by_cases he : (scanRows rows 0).1 ≠ 0
  · rw [if_pos he, if_pos he]
  · rw [if_neg he, if_neg he]

theorem delete_on_error (c : container) (io : DeleteWorld) (v m : GoString)
    (herr : (loadImage io.fetch v m).2 ≠ none ∨ io.query = none ∨
      ∃ rows, io.query = some rows ∧ (scanRows rows 0).2 = true) :
    (c.delete io v m).ret = false ∧ (c.delete io v m).queue = [] := by
  unfold container.delete
  rcases hl : loadImage io.fetch v m with ⟨i, e⟩
  cases e with
  | some e => exact ⟨rfl, rfl⟩
  | none =>
    rw [hl] at herr
    rcases herr with h | h | ⟨rows, h1, h2⟩
    · exact absurd rfl h
    · rw [h]
      exact ⟨rfl, rfl⟩
    · rw [h1]
      simp only []
      rw [if_pos h2]
      exact ⟨rfl, rfl⟩

theorem intOfUint64_small (e : Nat) (h : e < 2 ^ 63) : intOfUint64 e = (e : Int) := by
  have h1 : e % 2 ^ 64 = e := Nat.mod_eq_of_lt (by omega)
  unfold intOfUint64
  rw [h1, if_pos h]

/-- C10 (counterexample). The same delete command is handled twice, the
store answering `0` (no record) and then `77`: the reply to the user is the
same text, `"I've removed that image! (if it existed!)"`, both times, so the
report does not tell the two cases apart. And when the store answers
`2^63`, the delete-message action carries the id `-2^63`, the value of
`int(e)`, not `e`. -/
theorem delete_reply_same_for_zero_and_nonzero :
    (({ key := [], selfID := 1, recv := -100, users := [42] } : container).receive
        { caps := ⟨[]⟩, groups := ⟨[]⟩ }
        { now := 1000,
          add := { fetch := .getFileError, placeholder := none, query := none, edit := false },
          del := { fetch := .hashed (lit "ab") 5, query := some [some 0] } }
        ⟨some { Chat := some ⟨42, lit "private"⟩, From := some ⟨42, false⟩, Text := [],
                Caption := lit "/delete", MediaGroupID := [], Photo := [⟨lit "file", 10⟩],
                Video := none, Animation := none, Document := none }⟩).map Step.queue =
      some [NewMessage 42 (lit "I've removed that image! (if it existed!)")] ∧
    (({ key := [], selfID := 1, recv := -100, users := [42] } : container).receive
        { caps := ⟨[]⟩, groups := ⟨[]⟩ }
        { now := 1000,
          add := { fetch := .getFileError, placeholder := none, query := none, edit := false },
          del := { fetch := .hashed (lit "ab") 5, query := some [some 77] } }
        ⟨some { Chat := some ⟨42, lit "private"⟩, From := some ⟨42, false⟩, Text := [],
                Caption := lit "/delete", MediaGroupID := [], Photo := [⟨lit "file", 10⟩],
                Video := none, Animation := none, Document := none }⟩).map Step.queue =
      some [NewDeleteMessage (-100) 77,
            NewMessage 42 (lit "I've removed that image! (if it existed!)")] ∧
    (({ key := [], selfID := 1, recv := -100, users := [42] } : container).delete
        { fetch := .hashed (lit "ab") 5, query := some [some (2 ^ 63)] }
        (lit "file") []).queue = [NewDeleteMessage (-100) (-(2 ^ 63))] := by
  decide

/-- C10 (amended). For an update of the delete class:
* if fingerprinting, the store query and the row scan succeed with value
  `e`, the actions enqueued are, when `e ≠ 0`, one delete-message action for
  `(c.recv, int(e))`, and in both cases then the reply
  `"I've removed that image! (if it existed!)"`; when `e = 0` that reply is
  the only action;
* if fingerprinting fails (not an image, or an error), the query fails or a
  row fails to scan, the only action enqueued is the reply
  `"I'm sorry, but I cannot process that image."`.
For `e < 2^63`, `int(e)` is `e`. -/
theorem delete_flow_actions (c : container) (f : Forwarder) (io : StepWorld) (n : Update)
    (msg : Message) (chat : Chat) (u : User) (h : DeleteEvent c n msg chat u) :
    ∃ st, c.receive f io n = some st ∧
      (∀ i rows, loadImage io.del.fetch (getTarget msg).1 (getTarget msg).2 = (i, none) →
        io.del.query = some rows → (scanRows rows 0).2 = false →
        st.queue =
          (if (scanRows rows 0).1 ≠ 0
            then [NewDeleteMessage c.recv (intOfUint64 (scanRows rows 0).1)] else []) ++
          [NewMessage chat.ID (lit "I've removed that image! (if it existed!)")]) ∧
      (((loadImage io.del.fetch (getTarget msg).1 (getTarget msg).2).2 ≠ none ∨
          io.del.query = none ∨
          ∃ rows, io.del.query = some rows ∧ (scanRows rows 0).2 = true) →
        st.queue = [NewMessage chat.ID (lit "I'm sorry, but I cannot process that image.")]) ∧
      (∀ e : Nat, e < 2 ^ 63 → intOfUint64 e = (e : Int)) := by
  refine ⟨_, receive_delete_event c f io n msg chat u h, ?_, ?_, intOfUint64_small⟩
  · intro i rows hload hq hs
    simp only [delete_after_fingerprint c io.del _ _ i rows hload hq hs]
    rfl
  · intro herr
    obtain ⟨h1, h2⟩ := delete_on_error c io.del _ _ herr
    simp only [h1, h2]
    rfl

/-- C10 (amended), at a concrete event: a photo captioned `"/delete"` for
which the store answers message id `77`. -/
theorem delete_flow_actions_witness :
    ∃ st, ({ key := [], selfID := 1, recv := -100, users := [42] } : container).receive
        { caps := ⟨[]⟩, groups := ⟨[]⟩ }
        { now := 1000,
          add := { fetch := .getFileError, placeholder := none, query := none, edit := false },
          del := { fetch := .hashed (lit "ab") 5, query := some [some 77] } }
        ⟨some { Chat := some ⟨42, lit "private"⟩, From := some ⟨42, false⟩, Text := [],
                Caption := lit "/delete", MediaGroupID := [], Photo := [⟨lit "file", 10⟩],
                Video := none, Animation := none, Document := none }⟩ = some st ∧
      st.queue = [NewDeleteMessage (-100) 77,
        NewMessage 42 (lit "I've removed that image! (if it existed!)")] :=
  (delete_flow_actions
    ({ key := [], selfID := 1, recv := -100, users := [42] } : container)
    { caps := ⟨[]⟩, groups := ⟨[]⟩ }
    { now := 1000,
      add := { fetch := .getFileError, placeholder := none, query := none, edit := false },
      del := { fetch := .hashed (lit "ab") 5, query := some [some 77] } }
    ⟨some { Chat := some ⟨42, lit "private"⟩, From := some ⟨42, false⟩, Text := [],
            Caption := lit "/delete", MediaGroupID := [], Photo := [⟨lit "file", 10⟩],
            Video := none, Animation := none, Document := none }⟩
    { Chat := some ⟨42, lit "private"⟩, From := some ⟨42, false⟩, Text := [],
      Caption := lit "/delete", MediaGroupID := [], Photo := [⟨lit "file", 10⟩],
      Video := none, Animation := none, Document := none }
    ⟨42, lit "private"⟩ ⟨42, false⟩
    (by unfold DeleteEvent AuthorizedMedia; decide)).imp
    (fun _ hs => ⟨hs.1, (hs.2.1 { Sum := lit "ab", FileID := lit "file", Average := 5 }
      [some 77] (by decide) rfl (by decide)).trans (by decide)⟩)

/-! ## Dispatch of unauthorized and of text-only updates -/

/-- C11 (counterexample). Account `c` knows user `42` only. A message from
user `7` in a chat of type `"group"`, and a message in a private chat from
user `7` flagged as a bot, are both dropped: nothing is enqueued, so no
rejection reply is sent. -/
theorem unauthorized_outside_private_chat_no_reply :
    ({ key := [], selfID := 1, recv := -100, users := [42] } : container).receive
        { caps := ⟨[]⟩, groups := ⟨[]⟩ }
        { now := 1000,
          add := { fetch := .getFileError, placeholder := none, query := none, edit := false },
          del := { fetch := .getFileError, query := none } }
        ⟨some { Chat := some ⟨-5, lit "group"⟩, From := some ⟨7, false⟩, Text := lit "hi",
                Caption := [], MediaGroupID := [], Photo := [],
                Video := none, Animation := none, Document := none }⟩ =
      some { f := { caps := ⟨[]⟩, groups := ⟨[]⟩ }, queue := [], calls := [], flow := none } ∧
    ({ key := [], selfID := 1, recv := -100, users := [42] } : container).receive
        { caps := ⟨[]⟩, groups := ⟨[]⟩ }
        { now := 1000,
          add := { fetch := .getFileError, placeholder := none, query := none, edit := false },
          del := { fetch := .getFileError, query := none } }
        ⟨some { Chat := some ⟨7, lit "private"⟩, From := some ⟨7, true⟩, Text := lit "hi",
                Caption := [], MediaGroupID := [], Photo := [],
                Video := none, Animation := none, Document := none }⟩ =
      some { f := { caps := ⟨[]⟩, groups := ⟨[]⟩ }, queue := [], calls := [], flow := none } := by
  decide

/-- C11 (amended). For every update, whatever the caches hold and whatever
the message carries:
* a message sent in a private chat by a sender who is not a bot and whose
  id is not in the account's user list gets exactly one action enqueued, the
  text reply `"Sorry, I don't know you."` to the originating chat; both
  caches are exactly as before, no synchronous call is made and neither flow
  is invoked (the outcome does not mention the caches, so they are not read);
* a message in a chat that is not private is dropped, whoever sent it:
  nothing is enqueued, both caches are as before, no call, no flow;
* a message sent in a private chat by a bot is dropped in the same way;
* so is an update with no message, and a message with no chat. -/
theorem unauthorized_private_sender_rejected (c : container) (f : Forwarder) (io : StepWorld)
    (n : Update) :
    (∀ msg chat u, UnauthorizedEvent c n msg chat u →
      c.receive f io n = some
        { f := f, queue := [NewMessage chat.ID (lit "Sorry, I don't know you.")],
          calls := [], flow := none }) ∧
    (∀ msg chat, n.Message = some msg → msg.Chat = some chat → chat.IsPrivate = false →
      c.receive f io n = some { f := f, queue := [], calls := [], flow := none }) ∧
    (∀ msg chat u, n.Message = some msg → msg.Chat = some chat → chat.IsPrivate = true →
      msg.From = some u → u.IsBot = true →
      c.receive f io n = some { f := f, queue := [], calls := [], flow := none }) ∧
    (n.Message = none →
      c.receive f io n = some { f := f, queue := [], calls := [], flow := none }) ∧
    (∀ msg, n.Message = some msg → msg.Chat = none →
      c.receive f io n = some { f := f, queue := [], calls := [], flow := none }) := by
  refine ⟨?_, ?_, ?_, ?_, ?_⟩
  · intro msg chat u h
    obtain ⟨hm, hc, hp, hu, hb, ha⟩ := h
    have hna : c.isAuthorized u.ID = false := by
      cases hx : c.isAuthorized u.ID with
      | false => rfl
      | true => exact absurd ((isAuthorizedLoop_iff u.ID c.users).1 hx) ha
    simp only [container.receive, hm, hc, hp, hu, hb, hna, Bool.not_true, Bool.not_false,
      Bool.false_eq_true, if_false, if_true]
  · intro msg chat hm hc hp
    simp only [container.receive, hm, hc, hp, Bool.not_false, if_true]
  · intro msg chat u hm hc hp hu hb
    simp only [container.receive, hm, hc, hp, hu, hb, Bool.not_true, Bool.false_eq_true,
      if_false, if_true]
  · intro hm
    simp only [container.receive, hm]
  · intro msg hm hc
    simp only [container.receive, hm, hc]

/-- C11 (amended), at concrete events on an account that knows user `42`
only, while user `42` has a pending caption: user `7` sends a photo captioned
as a delete command in a private chat and gets the rejection; the authorized
user `42` sends a photo to a chat of type `"group"` and the message is
dropped. -/
theorem unauthorized_private_sender_rejected_witness :
    ({ key := [], selfID := 1, recv := -100, users := [42] } : container).receive
        { caps := ⟨[(42, ⟨lit "old", 7⟩)]⟩, groups := ⟨[]⟩ }
        { now := 1000,
          add := { fetch := .hashed (lit "ab") 5, placeholder := some 9,
                   query := some [some 0], edit := true },
          del := { fetch := .hashed (lit "ab") 5, query := some [some 3] } }
        ⟨some { Chat := some ⟨7, lit "private"⟩, From := some ⟨7, false⟩,
                Text := lit "/delete", Caption := [], MediaGroupID := [],
                Photo := [⟨lit "file", 10⟩],
                Video := none, Animation := none, Document := none }⟩ =
      some { f := { caps := ⟨[(42, ⟨lit "old", 7⟩)]⟩, groups := ⟨[]⟩ },
             queue := [NewMessage 7 (lit "Sorry, I don't know you.")],
             calls := [], flow := none } ∧
    ({ key := [], selfID := 1, recv := -100, users := [42] } : container).receive
        { caps := ⟨[(42, ⟨lit "old", 7⟩)]⟩, groups := ⟨[]⟩ }
        { now := 1000,
          add := { fetch := .hashed (lit "ab") 5, placeholder := some 9,
                   query := some [some 0], edit := true },
          del := { fetch := .hashed (lit "ab") 5, query := some [some 3] } }
        ⟨some { Chat := some ⟨-5, lit "group"⟩, From := some ⟨42, false⟩,
                Text := [], Caption := [], MediaGroupID := [],
                Photo := [⟨lit "file", 10⟩],
                Video := none, Animation := none, Document := none }⟩ =
      some { f := { caps := ⟨[(42, ⟨lit "old", 7⟩)]⟩, groups := ⟨[]⟩ },
             queue := [], calls := [], flow := none } :=
  ⟨(unauthorized_private_sender_rejected
      ({ key := [], selfID := 1, recv := -100, users := [42] } : container)
      { caps := ⟨[(42, ⟨lit "old", 7⟩)]⟩, groups := ⟨[]⟩ }
      { now := 1000,
        add := { fetch := .hashed (lit "ab") 5, placeholder := some 9,
                 query := some [some 0], edit := true },
        del := { fetch := .hashed (lit "ab") 5, query := some [some 3] } }
      ⟨some { Chat := some ⟨7, lit "private"⟩, From := some ⟨7, false⟩,
              Text := lit "/delete", Caption := [], MediaGroupID := [],
              Photo := [⟨lit "file", 10⟩],
              Video := none, Animation := none, Document := none }⟩).1
      { Chat := some ⟨7, lit "private"⟩, From := some ⟨7, false⟩,
        Text := lit "/delete", Caption := [], MediaGroupID := [],
        Photo := [⟨lit "file", 10⟩],
        Video := none, Animation := none, Document := none }
      ⟨7, lit "private"⟩ ⟨7, false⟩
      (by unfold UnauthorizedEvent; decide),
   (unauthorized_private_sender_rejected
      ({ key := [], selfID := 1, recv := -100, users := [42] } : container)
      { caps := ⟨[(42, ⟨lit "old", 7⟩)]⟩, groups := ⟨[]⟩ }
      { now := 1000,
        add := { fetch := .hashed (lit "ab") 5, placeholder := some 9,
                 query := some [some 0], edit := true },
        del := { fetch := .hashed (lit "ab") 5, query := some [some 3] } }
      ⟨some { Chat := some ⟨-5, lit "group"⟩, From := some ⟨42, false⟩,
              Text := [], Caption := [], MediaGroupID := [],
              Photo := [⟨lit "file", 10⟩],
              Video := none, Animation := none, Document := none }⟩).2.1
      { Chat := some ⟨-5, lit "group"⟩, From := some ⟨42, false⟩,
        Text := [], Caption := [], MediaGroupID := [],
        Photo := [⟨lit "file", 10⟩],
        Video := none, Animation := none, Document := none }
      ⟨-5, lit "group"⟩ rfl rfl (by decide)⟩

theorem mapLookup_mapDelete_other {T : Type} [DecidableEq T] (l : List (T × caption))
    (k k2 : T) (h : k2 ≠ k) : mapLookup (mapDelete l k) k2 = mapLookup l k2 := by
  induction l with
  | nil => rfl
  | cons e r ih =>
    unfold mapDelete at ih ⊢
    by_cases he : e.1 = k
    · have hne : e.1 ≠ k2 := by rw [he]; exact fun hx => h hx.symm
      rw [List.filter_cons_of_neg (by simpa using he), ih]
      simp only [mapLookup, if_neg hne]
    · rw [List.filter_cons_of_pos (by simpa using he)]
      simp only [mapLookup, ih]

theorem mapLookup_mapAssign_other {T : Type} [DecidableEq T] (l : List (T × caption))
    (k k2 : T) (c : caption) (h : k2 ≠ k) :
    mapLookup (mapAssign l k c) k2 = mapLookup l k2 := by
  unfold mapAssign
  have hne : ¬ (k = k2) := fun hx => h hx.symm
  simp only [mapLookup, if_neg hne]
  exact mapLookup_mapDelete_other l k k2 h

/-- What `receive` does with an update of the text class. -/
theorem receive_text_event (c : container) (f : Forwarder) (io : StepWorld) (n : Update)
    (msg : Message) (chat : Chat) (u : User) (h : AuthorizedText c n msg chat u) :
    c.receive f io n = some
      (if msg.Text.length = 0 then { f := f, queue := [], calls := [], flow := none }
       else if HasPrefix msg.Text (lit "/del") then
         { f := f,
           queue := [NewMessage chat.ID (lit "Use \"/delete\" with an image to delete it.")],
           calls := [], flow := none }
       else if HasPrefix msg.Text (lit "/clear") then
         { f := { f with caps := f.caps.clear u.ID },
           queue := [NewMessage chat.ID (lit "Removed any current cached caption!")],
           calls := [], flow := none }
       else
         { f := { f with caps := f.caps.set io.now u.ID msg.Text },
           queue := [], calls := [], flow := none }) := by
  obtain ⟨hm, hc, hp, hu, hb, ha, ht⟩ := h
  have hau : c.isAuthorized u.ID = true := (isAuthorizedLoop_iff u.ID c.users).2 ha
  have hl : (getTarget msg).1.length = 0 := by rw [ht]; rfl
  simp only [container.receive, hm, hc, hp, hu, hb, hau, hl, Bool.not_true,
    Bool.false_eq_true, if_false, if_true]
  split
  · rfl
  · split
    · rfl
    · split <;> rfl

/-- C12 (counterexample). User `42` is authorized and has the pending caption
`"old"`. A message of theirs with no attachment and an empty text (private
chat) stores nothing: the entry `"old"` is still there, not overwritten by
the empty text. And a message of theirs with text `"hello"` in a chat of type
`"group"` is dropped: nothing is stored and nothing is enqueued. -/
theorem authorized_text_not_always_stored :
    ({ key := [], selfID := 1, recv := -100, users := [42] } : container).receive
        { caps := ⟨[(42, ⟨lit "old", 7⟩)]⟩, groups := ⟨[]⟩ }
        { now := 1000,
          add := { fetch := .getFileError, placeholder := none, query := none, edit := false },
          del := { fetch := .getFileError, query := none } }
        ⟨some { Chat := some ⟨42, lit "private"⟩, From := some ⟨42, false⟩, Text := [],
                Caption := [], MediaGroupID := [], Photo := [],
                Video := none, Animation := none, Document := none }⟩ =
      some { f := { caps := ⟨[(42, ⟨lit "old", 7⟩)]⟩, groups := ⟨[]⟩ },
             queue := [], calls := [], flow := none } ∧
    ({ key := [], selfID := 1, recv := -100, users := [42] } : container).receive
        { caps := ⟨[(42, ⟨lit "old", 7⟩)]⟩, groups := ⟨[]⟩ }
        { now := 1000,
          add := { fetch := .getFileError, placeholder := none, query := none, edit := false },
          del := { fetch := .getFileError, query := none } }
        ⟨some { Chat := some ⟨-5, lit "group"⟩, From := some ⟨42, false⟩,
                Text := lit "hello",
                Caption := [], MediaGroupID := [], Photo := [],
                Video := none, Animation := none, Document := none }⟩ =
      some { f := { caps := ⟨[(42, ⟨lit "old", 7⟩)]⟩, groups := ⟨[]⟩ },
             queue := [], calls := [], flow := none } := by
  decide

/-- C12 (amended). For every message sent in a private chat by a sender `u`
who is not a bot and is in the account's user list, with no media
attachment: the update is handled with no synchronous call and no flow
invoked, the group cache is unchanged, the pending caption of every other
user is unchanged, and exactly one of the following happens according to the
text:
* empty text: nothing is enqueued and both caches are unchanged;
* text starting with `"/del"`: the usage hint is the one action enqueued and
  both caches are unchanged;
* otherwise, text starting with `"/clear"`: `u` has no pending caption
  afterwards and the confirmation is the one action enqueued;
* otherwise (non-empty text): the text is `u`'s pending caption afterwards,
  expiring `captionTimeout` after the clock value, whatever was stored
  before, and nothing is enqueued. -/
theorem authorized_text_dispatch (c : container) (f : Forwarder) (io : StepWorld) (n : Update)
    (msg : Message) (chat : Chat) (u : User) (h : AuthorizedText c n msg chat u) :
    ∃ st, c.receive f io n = some st ∧
      st.calls = [] ∧ st.flow = none ∧ st.f.groups = f.groups ∧
      (∀ k, k ≠ u.ID → mapLookup st.f.caps.v k = mapLookup f.caps.v k) ∧
      (msg.Text = [] → st.f = f ∧ st.queue = []) ∧
      (HasPrefix msg.Text (lit "/del") = true →
        st.f = f ∧
        st.queue = [NewMessage chat.ID (lit "Use \"/delete\" with an image to delete it.")]) ∧
      (HasPrefix msg.Text (lit "/del") = false → HasPrefix msg.Text (lit "/clear") = true →
        mapLookup st.f.caps.v u.ID = none ∧
        st.queue = [NewMessage chat.ID (lit "Removed any current cached caption!")]) ∧
      (msg.Text ≠ [] → HasPrefix msg.Text (lit "/del") = false →
        HasPrefix msg.Text (lit "/clear") = false →
        mapLookup st.f.caps.v u.ID =
          some { Tag := msg.Text, Time := io.now + captionTimeout } ∧
        st.queue = []) := by
  refine ⟨_, receive_text_event c f io n msg chat u h, ?_⟩
  by_cases h0 : msg.Text = []
  · have hd : HasPrefix msg.Text (lit "/del") = false := by rw [h0]; decide
    have hc : HasPrefix msg.Text (lit "/clear") = false := by rw [h0]; decide
    have hl : msg.Text.length = 0 := by rw [h0]; rfl
    rw [if_pos hl]
    refine ⟨rfl, rfl, rfl, fun _ _ => rfl, fun _ => ⟨rfl, rfl⟩, ?_, ?_, ?_⟩
    · intro hx; rw [hd] at hx; cases hx
    · intro _ hx; rw [hc] at hx; cases hx
    · intro hx; exact absurd h0 hx
  · have hl : ¬ (msg.Text.length = 0) := fun hx => h0 (List.length_eq_zero.1 hx)
    rw [if_neg hl]
    by_cases hd : HasPrefix msg.Text (lit "/del") = true
    · rw [if_pos hd]
      simp [hd, h0]
    · rw [if_neg hd]
      have hd2 : HasPrefix msg.Text (lit "/del") = false := by simpa using hd
      by_cases hc : HasPrefix msg.Text (lit "/clear") = true
      · rw [if_pos hc]
        refine ⟨rfl, rfl, rfl, ?_, ?_, ?_, ?_, ?_⟩
        · intro k hk
          exact mapLookup_mapDelete_other _ _ _ hk
        · intro hx; exact absurd hx h0
        · intro hx; rw [hd2] at hx; cases hx
        · intro _ _
          exact ⟨mapLookup_mapDelete_self _ _, rfl⟩
        · intro _ _ hx; rw [hc] at hx; cases hx
      · rw [if_neg hc]
        refine ⟨rfl, rfl, rfl, ?_, ?_, ?_, ?_, ?_⟩
        · intro k hk
          exact mapLookup_mapAssign_other _ _ _ _ hk
        · intro hx; exact absurd hx h0
        · intro hx; rw [hd2] at hx; cases hx
        · intro _ hx; exact absurd hx hc
        · intro _ _ _
          exact ⟨mapLookup_mapAssign_self _ _ _, rfl⟩

/-- C12 (amended), at a concrete event: user `42`, who has the pending
caption `"old"`, sends the text `"new"`. -/
theorem authorized_text_dispatch_witness :
    ∃ st, ({ key := [], selfID := 1, recv := -100, users := [42] } : container).receive
        { caps := ⟨[(42, ⟨lit "old", 7⟩), (43, ⟨lit "x", 8⟩)]⟩, groups := ⟨[]⟩ }
        { now := 1000,
          add := { fetch := .getFileError, placeholder := none, query := none, edit := false },
          del := { fetch := .getFileError, query := none } }
        ⟨some { Chat := some ⟨42, lit "private"⟩, From := some ⟨42, false⟩,
                Text := lit "new", Caption := [], MediaGroupID := [], Photo := [],
                Video := none, Animation := none, Document := none }⟩ = some st ∧
      mapLookup st.f.caps.v 42 = some { Tag := lit "new", Time := 1000 + captionTimeout } ∧
      mapLookup st.f.caps.v 43 = some { Tag := lit "x", Time := 8 } ∧
      st.queue = [] :=
  (authorized_text_dispatch
    ({ key := [], selfID := 1, recv := -100, users := [42] } : container)
    { caps := ⟨[(42, ⟨lit "old", 7⟩), (43, ⟨lit "x", 8⟩)]⟩, groups := ⟨[]⟩ }
    { now := 1000,
      add := { fetch := .getFileError, placeholder := none, query := none, edit := false },
      del := { fetch := .getFileError, query := none } }
    ⟨some { Chat := some ⟨42, lit "private"⟩, From := some ⟨42, false⟩,
            Text := lit "new", Caption := [], MediaGroupID := [], Photo := [],
            Video := none, Animation := none, Document := none }⟩
    { Chat := some ⟨42, lit "private"⟩, From := some ⟨42, false⟩,
      Text := lit "new", Caption := [], MediaGroupID := [], Photo := [],
      Video := none, Animation := none, Document := none }
    ⟨42, lit "private"⟩ ⟨42, false⟩
    (by unfold AuthorizedText; decide)).imp
    (fun _ hs =>
      ⟨hs.1,
       (hs.2.2.2.2.2.2.2.2 (by decide) (by decide) (by decide)).1,
       (hs.2.2.2.2.1 43 (by decide)).trans (by decide),
       (hs.2.2.2.2.2.2.2.2 (by decide) (by decide) (by decide)).2⟩)

/-! ## Media-group reuse -/

/-- The caption resolution for a media group whose caption is cached: the
cached text, with both caches untouched. -/
theorem resolveCaption_group_hit (f : Forwarder) (now : Int) (msg : Message) (uid : Int)
    (gc : caption) (hg : msg.MediaGroupID ≠ [])
    (hgc : mapLookup f.groups.v msg.MediaGroupID = some gc) :
    resolveCaption f now msg uid = (gc.Tag, f) := by
  have hlen : msg.MediaGroupID.length > 0 := List.length_pos.2 hg
  simp only [resolveCaption, hlen, if_true, maps.get, hgc, Bool.false_eq_true, if_false]

/-- The caption resolution for a media group with no cached caption when the
sender has a pending caption: that caption, consumed and written to the
group cache. -/
theorem resolveCaption_group_pending (f : Forwarder) (now : Int) (msg : Message) (uid : Int)
    (cap : caption) (hg : msg.MediaGroupID ≠ [])
    (hgc : mapLookup f.groups.v msg.MediaGroupID = none)
    (hcc : mapLookup f.caps.v uid = some cap) :
    resolveCaption f now msg uid =
      (cap.Tag, { caps := ⟨mapDelete f.caps.v uid⟩,
                  groups := f.groups.set now msg.MediaGroupID cap.Tag }) := by
  have hlen : msg.MediaGroupID.length > 0 := List.length_pos.2 hg
  simp only [resolveCaption, hlen, if_true, maps.get, hgc, hcc, Bool.false_eq_true, if_false]

/-- C13. For an update of the add class with media-group id `g`, when the
group cache has no entry for `g` and the sender has the pending caption `s`
(`cap.Tag`): the add flow gets `s`, the sender has no pending caption
afterwards, and the group cache holds `s` under `g`. For every later update
of the add class with the same `g`, handled in any state `f2` whose group
cache holds `s` under `g` (whatever its expiry): the add flow gets `s`
again, both caches are exactly as before, and the outcome is the same for
any other content `caps3` of the pending-caption cache, which is therefore
neither read nor modified. -/
theorem group_caption_reused (c : container) (f : Forwarder) (io : StepWorld) (n : Update)
    (msg : Message) (chat : Chat) (u : User) (cap : caption)
    (f2 : Forwarder) (caps3 : maps Int) (io2 : StepWorld) (n2 : Update) (msg2 : Message)
    (chat2 : Chat) (u2 : User) (t : Int)
    (h : AddEvent c n msg chat u)
    (hg : msg.MediaGroupID ≠ [])
    (hgc : mapLookup f.groups.v msg.MediaGroupID = none)
    (hcc : mapLookup f.caps.v u.ID = some cap)
    (h2 : AddEvent c n2 msg2 chat2 u2)
    (hg2 : msg2.MediaGroupID = msg.MediaGroupID)
    (hgc2 : mapLookup f2.groups.v msg.MediaGroupID = some { Tag := cap.Tag, Time := t }) :
    ∃ st st2,
      c.receive f io n = some st ∧
      st.flow = some (.add (getTarget msg).1 (getTarget msg).2 cap.Tag) ∧
      mapLookup st.f.caps.v u.ID = none ∧
      mapLookup st.f.groups.v msg.MediaGroupID =
        some { Tag := cap.Tag, Time := io.now + captionTimeout } ∧
      c.receive f2 io2 n2 = some st2 ∧
      st2.flow = some (.add (getTarget msg2).1 (getTarget msg2).2 cap.Tag) ∧
      st2.f = f2 ∧
      c.receive { caps := caps3, groups := f2.groups } io2 n2 =
        some { st2 with f := { caps := caps3, groups := f2.groups } } := by
  have hg2n : msg2.MediaGroupID ≠ [] := by rw [hg2]; exact hg
  have hhit : ∀ f3 : Forwarder, f3.groups = f2.groups →
      resolveCaption f3 io2.now msg2 u2.ID = (cap.Tag, f3) := by
    intro f3 hf3
    have := resolveCaption_group_hit f3 io2.now msg2 u2.ID { Tag := cap.Tag, Time := t } hg2n
      (by rw [hf3, hg2]; exact hgc2)
    exact this
  refine ⟨_, _, receive_add_event c f io n msg chat u h, ?_, ?_, ?_,
    receive_add_event c f2 io2 n2 msg2 chat2 u2 h2, ?_, ?_, ?_⟩
  · simp only [resolveCaption_group_pending f io.now msg u.ID cap hg hgc hcc]
  · simp only [resolveCaption_group_pending f io.now msg u.ID cap hg hgc hcc]
    exact mapLookup_mapDelete_self _ _
  · simp only [resolveCaption_group_pending f io.now msg u.ID cap hg hgc hcc]
    exact mapLookup_mapAssign_self _ _ _
  · simp only [hhit f2 rfl]
  · simp only [hhit f2 rfl]
  · rw [receive_add_event c _ io2 n2 msg2 chat2 u2 h2]
    simp only [hhit f2 rfl, hhit { caps := caps3, groups := f2.groups } rfl]

/-- C13, at concrete events: user `42`, with pending caption `"trip"`, sends
two photos of media group `g1`; the second is handled in the state the first
one leaves. -/
theorem group_caption_reused_witness :
    ∃ st st2,
      ({ key := [], selfID := 1, recv := -100, users := [42] } : container).receive
        { caps := ⟨[(42, ⟨lit "trip", 7⟩)]⟩, groups := ⟨[]⟩ }
        { now := 1000,
          add := { fetch := .hashed (lit "ab") 5, placeholder := some 9,
                   query := some [some 0], edit := true },
          del := { fetch := .getFileError, query := none } }
        ⟨some { Chat := some ⟨42, lit "private"⟩, From := some ⟨42, false⟩, Text := [],
                Caption := [], MediaGroupID := lit "g1", Photo := [⟨lit "file1", 10⟩],
                Video := none, Animation := none, Document := none }⟩ = some st ∧
      st.flow = some (.add (lit "file1") [] (lit "trip")) ∧
      ({ key := [], selfID := 1, recv := -100, users := [42] } : container).receive
        { caps := ⟨[]⟩, groups := ⟨[(lit "g1", ⟨lit "trip", 1000 + captionTimeout⟩)]⟩ }
        { now := 2000,
          add := { fetch := .hashed (lit "cd") 6, placeholder := some 10,
                   query := some [some 0], edit := true },
          del := { fetch := .getFileError, query := none } }
        ⟨some { Chat := some ⟨42, lit "private"⟩, From := some ⟨42, false⟩, Text := [],
                Caption := [], MediaGroupID := lit "g1", Photo := [⟨lit "file2", 10⟩],
                Video := none, Animation := none, Document := none }⟩ = some st2 ∧
      st2.flow = some (.add (lit "file2") [] (lit "trip")) ∧
      st2.f = { caps := ⟨[]⟩, groups := ⟨[(lit "g1", ⟨lit "trip", 1000 + captionTimeout⟩)]⟩ } :=
  have h := group_caption_reused
    ({ key := [], selfID := 1, recv := -100, users := [42] } : container)
    { caps := ⟨[(42, ⟨lit "trip", 7⟩)]⟩, groups := ⟨[]⟩ }
    { now := 1000,
      add := { fetch := .hashed (lit "ab") 5, placeholder := some 9,
               query := some [some 0], edit := true },
      del := { fetch := .getFileError, query := none } }
    ⟨some { Chat := some ⟨42, lit "private"⟩, From := some ⟨42, false⟩, Text := [],
            Caption := [], MediaGroupID := lit "g1", Photo := [⟨lit "file1", 10⟩],
            Video := none, Animation := none, Document := none }⟩
    { Chat := some ⟨42, lit "private"⟩, From := some ⟨42, false⟩, Text := [],
      Caption := [], MediaGroupID := lit "g1", Photo := [⟨lit "file1", 10⟩],
      Video := none, Animation := none, Document := none }
    ⟨42, lit "private"⟩ ⟨42, false⟩ ⟨lit "trip", 7⟩
    { caps := ⟨[]⟩, groups := ⟨[(lit "g1", ⟨lit "trip", 1000 + captionTimeout⟩)]⟩ }
    ⟨[]⟩
    { now := 2000,
      add := { fetch := .hashed (lit "cd") 6, placeholder := some 10,
               query := some [some 0], edit := true },
      del := { fetch := .getFileError, query := none } }
    ⟨some { Chat := some ⟨42, lit "private"⟩, From := some ⟨42, false⟩, Text := [],
            Caption := [], MediaGroupID := lit "g1", Photo := [⟨lit "file2", 10⟩],
            Video := none, Animation := none, Document := none }⟩
    { Chat := some ⟨42, lit "private"⟩, From := some ⟨42, false⟩, Text := [],
      Caption := [], MediaGroupID := lit "g1", Photo := [⟨lit "file2", 10⟩],
      Video := none, Animation := none, Document := none }
    ⟨42, lit "private"⟩ ⟨42, false⟩ (1000 + captionTimeout)
    (by unfold AddEvent AuthorizedMedia; decide) (by decide) (by decide) (by decide)
    (by unfold AddEvent AuthorizedMedia; decide) (by decide) (by decide)
  h.imp (fun _ hs => hs.imp (fun _ hs2 =>
    ⟨hs2.1, hs2.2.1, hs2.2.2.2.2.1, hs2.2.2.2.2.2.1, hs2.2.2.2.2.2.2.1⟩))

/-! ## Media that is not a picture -/

theorem loadImage_errNotImage_data (w : Fetch) (id mime : GoString)
    (h : (loadImage w id mime).2 = some .errNotImage) :
    loadImage w id mime = ({ Sum := [], FileID := id, Average := 0 }, some .errNotImage) := by
  unfold loadImage at h ⊢
  split
  · rfl
  · rename_i hc
    rw [if_neg hc] at h
    cases w <;> first | rfl | (simp at h)

/-- C14. When `loadImage` reports `errNotImage` for the file `v` with
declared MIME type `m`, the add flow makes no synchronous call (no
placeholder send, no store query) and
* if `m` ends with `"/gif"`, it enqueues exactly one action, an animation
  to the target channel with caption `d`, and returns `addIsNotImage`;
* otherwise, if `m` starts with `"video/"`, it enqueues exactly one action,
  a video to the target channel with caption `d`, and returns
  `addIsNotImage`;
* otherwise it enqueues nothing and returns `addFailed`; the empty MIME type
  is such an `m`. -/
theorem add_not_image_by_mime (c : container) (io : AddWorld) (v m d : GoString)
    (h : (loadImage io.fetch v m).2 = some .errNotImage) :
    (c.add io v m d).calls = [] ∧
    (HasSuffix m (lit "/gif") = true →
      (c.add io v m d).ret = addIsNotImage ∧
      (c.add io v m d).queue =
        [.AnimationConfig c.recv { Sum := [], FileID := v, Average := 0 } d]) ∧
    (HasSuffix m (lit "/gif") = false → HasPrefix m (lit "video/") = true →
      (c.add io v m d).ret = addIsNotImage ∧
      (c.add io v m d).queue =
        [.VideoConfig c.recv { Sum := [], FileID := v, Average := 0 } d]) ∧
    (HasSuffix m (lit "/gif") = false → HasPrefix m (lit "video/") = false →
      (c.add io v m d).ret = addFailed ∧ (c.add io v m d).queue = []) ∧
    (HasSuffix [] (lit "/gif") = false ∧ HasPrefix [] (lit "video/") = false) := by
  have hl := loadImage_errNotImage_data io.fetch v m h
  have hadd : c.add io v m d =
      if HasSuffix m (lit "/gif") then
        { ret := addIsNotImage,
          queue := [.AnimationConfig c.recv { Sum := [], FileID := v, Average := 0 } d],
          calls := [] }
      else if HasPrefix m (lit "video/") then
        { ret := addIsNotImage,
          queue := [.VideoConfig c.recv { Sum := [], FileID := v, Average := 0 } d],
          calls := [] }
      else { ret := addFailed, queue := [], calls := [] } := by
    simp only [container.add, hl]
  rw [hadd]
  refine ⟨?_, ?_, ?_, ?_, by decide, by decide⟩
  · split
    · rfl
    · split <;> rfl
  · intro h1
    rw [if_pos h1]
    exact ⟨rfl, rfl⟩
  · intro h1 h2
    rw [if_neg (by simp [h1]), if_pos h2]
    exact ⟨rfl, rfl⟩
  · intro h1 h2
    rw [if_neg (by simp [h1]), if_neg (by simp [h2])]
    exact ⟨rfl, rfl⟩

/-- C14, at concrete files: a `"video/mp4"` document, and an `"image/gif"`
document the decoder rejects. -/
theorem add_not_image_by_mime_witness :
    (({ key := [], selfID := 1, recv := -100, users := [42] } : container).add
        { fetch := .getFileError, placeholder := some 9, query := some [some 0], edit := true }
        (lit "file") (lit "video/mp4") (lit "hi")).queue =
      [.VideoConfig (-100) { Sum := [], FileID := lit "file", Average := 0 } (lit "hi")] ∧
    (({ key := [], selfID := 1, recv := -100, users := [42] } : container).add
        { fetch := .decodeError, placeholder := some 9, query := some [some 0], edit := true }
        (lit "file") (lit "image/gif") (lit "hi")).queue =
      [.AnimationConfig (-100) { Sum := [], FileID := lit "file", Average := 0 } (lit "hi")] :=
  ⟨((add_not_image_by_mime
      ({ key := [], selfID := 1, recv := -100, users := [42] } : container)
      { fetch := .getFileError, placeholder := some 9, query := some [some 0], edit := true }
      (lit "file") (lit "video/mp4") (lit "hi") (by decide)).2.2.1 (by decide) (by decide)).2,
   ((add_not_image_by_mime
      ({ key := [], selfID := 1, recv := -100, users := [42] } : container)
      { fetch := .decodeError, placeholder := some 9, query := some [some 0], edit := true }
      (lit "file") (lit "image/gif") (lit "hi") (by decide)).2.1 (by decide)).2⟩

/-! ## Span tiling and the dropped leading tag -/

theorem Tiling.start_le_end {lo hi : Int} {e : List MessageEntity} (h : Tiling lo hi e) :
    lo ≤ hi := by
  induction e generalizing lo with
  | nil => exact le_of_eq h
  | cons a r ih =>
    obtain ⟨h1, h2, h3⟩ := h
    have := ih h3
    omega

theorem Tiling.eq_nil_of_eq {lo : Int} {e : List MessageEntity} (h : Tiling lo lo e) :
    e = [] := by
  cases e with
  | nil => rfl
  | cons a r =>
    obtain ⟨h1, h2, h3⟩ := h
    have := h3.start_le_end
    omega

theorem Tiling.append_span {lo m n : Int} {e : List MessageEntity} (h : Tiling lo m e)
    (hn : 0 < n) : Tiling lo (m + n) (e ++ [hashtagEntity m n]) := by
  induction e generalizing lo with
  | nil =>
    have h0 : lo = m := h
    subst h0
    exact ⟨rfl, hn, rfl⟩
  | cons a r ih => exact ⟨h.1, h.2.1, ih h.2.2⟩

theorem Tiling.cons_snoc {t i hi : Int} {e : List MessageEntity} (hlt : t < i)
    (h : Tiling i hi e) : Tiling t hi ([hashtagEntity t (i - t)] ++ e) := by
  refine ⟨rfl, by simp only [hashtagEntity]; omega, ?_⟩
  have : (hashtagEntity t (i - t)).Offset + (hashtagEntity t (i - t)).Length = i := by
    simp only [hashtagEntity]; omega
  rw [this]
  exact h

theorem Tiling.chain {lo hi : Int} {e : List MessageEntity} (h : Tiling lo hi e) :
    e.Chain' (fun a b => a.Offset + a.Length = b.Offset) := by
  induction e generalizing lo with
  | nil => exact List.chain'_nil
  | cons a r ih =>
    obtain ⟨_, _, h3⟩ := h
    cases r with
    | nil => exact List.chain'_singleton a
    | cons b r2 => exact List.chain'_cons.2 ⟨h3.1.symm, ih h3⟩

theorem Tiling.getLast {lo hi : Int} {e : List MessageEntity} (h : Tiling lo hi e)
    (hne : e ≠ []) : e.getLast?.map (fun a => a.Offset + a.Length) = some hi := by
  induction e generalizing lo with
  | nil => exact absurd rfl hne
  | cons a r ih =>
    obtain ⟨_, _, h3⟩ := h
    cases r with
    | nil =>
      have h0 : a.Offset + a.Length = hi := h3
      simp [h0]
    | cons b r2 =>
      have := ih h3 (List.cons_ne_nil b r2)
      rw [List.getLast?_cons_cons]
      exact this

theorem Tiling.cover {lo hi : Int} {e : List MessageEntity} (h : Tiling lo hi e) (j : Int)
    (h1 : lo ≤ j) (h2 : j < hi) : ∃ a ∈ e, a.Offset ≤ j ∧ j < a.Offset + a.Length := by
  induction e generalizing lo with
  | nil =>
    have h0 : lo = hi := h
    omega
  | cons a r ih =>
    obtain ⟨k1, k2, k3⟩ := h
    by_cases hj : j < a.Offset + a.Length
    · exact ⟨a, List.mem_cons_self _ _, by omega, hj⟩
    · obtain ⟨b, hb, hb2⟩ := ih k3 (by omega)
      exact ⟨b, List.mem_cons_of_mem _ hb, hb2⟩

/-- The loop of `splitTags` with a span open at `t`: the spans appended tile
`[t, t2)`, where `t2` is the start of the span open at the end, and `t2 = t`
exactly when none of the bytes read is `'#'` or a break character. -/
theorem splitTagsLoop_open (rest : List Nat) (i t : Int) (e : List MessageEntity)
    (ht : 0 ≤ t) (hti : t < i) :
    ∃ e2, (splitTagsLoop rest i t e).2 = e ++ e2 ∧
      Tiling t (splitTagsLoop rest i t e).1 e2 ∧
      (splitTagsLoop rest i t e).1 < i + rest.length ∧
      ((splitTagsLoop rest i t e).1 = t ↔ ∀ b ∈ rest, isCloser b = false) := by
  induction rest generalizing i t e with
  | nil =>
    refine ⟨[], by simp [splitTagsLoop], rfl, by simpa [splitTagsLoop] using hti, ?_⟩
    simp [splitTagsLoop]
  | cons b rest ih =>
    have hlen : i + ((b :: rest).length : Int) = (i + 1) + (rest.length : Int) := by
      simp only [List.length_cons, Nat.cast_add, Nat.cast_one]; ring
    rw [hlen]
    have hne : t ≠ -1 := by omega
    have hpos : i - t > 0 := by omega
    -- the step taken on a byte that closes the open span
    have hclose : isCloser b = true →
        ∃ e2, (splitTagsLoop rest (i + 1) i (e ++ [hashtagEntity t (i - t)])).2 = e ++ e2 ∧
          Tiling t (splitTagsLoop rest (i + 1) i (e ++ [hashtagEntity t (i - t)])).1 e2 ∧
          (splitTagsLoop rest (i + 1) i (e ++ [hashtagEntity t (i - t)])).1
            < (i + 1) + rest.length ∧
          ((splitTagsLoop rest (i + 1) i (e ++ [hashtagEntity t (i - t)])).1 = t ↔
            ∀ x ∈ b :: rest, isCloser x = false) := by
      intro hb
      obtain ⟨e3, k1, k2, k3, _⟩ :=
        ih (i + 1) i (e ++ [hashtagEntity t (i - t)]) (by omega) (by omega)
      refine ⟨[hashtagEntity t (i - t)] ++ e3, ?_, Tiling.cons_snoc hti k2, k3, ?_⟩
      · rw [k1, List.append_assoc]
      · have hge := k2.start_le_end
        constructor
        · intro hx; omega
        · intro hx
          have := hx b (List.mem_cons_self _ _)
          rw [hb] at this
          cases this
    unfold splitTagsLoop
    by_cases hb : b = 35
    · rw [if_pos hb, if_neg hne, if_pos hpos]
      exact hclose (by simp [isCloser, hb])
    · rw [if_neg hb]
      by_cases hk : isBreak b = true
      · rw [if_pos hk, if_neg hne, if_pos hpos]
        exact hclose (by simp [isCloser, hk])
      · rw [if_neg hk]
        obtain ⟨e3, k1, k2, k3, k4⟩ := ih (i + 1) t e ht (by omega)
        refine ⟨e3, k1, k2, k3, ?_⟩
        rw [k4]
        have hnc : isCloser b = false := by
          simp only [isCloser, Bool.or_eq_false_iff, beq_eq_false_iff_ne]
          exact ⟨hb, by simpa using hk⟩
        simp [hnc]

theorem splitTagsLoop_cons (b : Nat) (rest : List Nat) (i t : Int) (e : List MessageEntity) :
    splitTagsLoop (b :: rest) i t e =
      if b = 35 then
        if t = -1 then splitTagsLoop rest (i + 1) i e
        else if i - t > 0 then splitTagsLoop rest (i + 1) i (e ++ [hashtagEntity t (i - t)])
        else splitTagsLoop rest (i + 1) i e
      else if isBreak b then
        if t = -1 then splitTagsLoop rest (i + 1) t e
        else if i - t > 0 then splitTagsLoop rest (i + 1) i (e ++ [hashtagEntity t (i - t)])
        else splitTagsLoop rest (i + 1) i e
      else splitTagsLoop rest (i + 1) t e := by
  rw [splitTagsLoop]

/-- The loop of `splitTags` with no span open and none emitted: it stays so
up to the first `'#'`, which opens a span at its own index. -/
theorem splitTagsLoop_closed (rest : List Nat) (i : Int) :
    splitTagsLoop rest i (-1) [] =
      if 35 ∈ rest then
        splitTagsLoop (rest.drop (rest.indexOf 35 + 1)) (i + (rest.indexOf 35 : Nat) + 1)
          (i + (rest.indexOf 35 : Nat)) []
      else (-1, []) := by
  induction rest generalizing i with
  | nil => simp [splitTagsLoop]
  | cons b rest ih =>
    rw [splitTagsLoop_cons]
    by_cases hb : b = 35
    · subst hb
      simp
    · have hb2 : ¬ (35 = b) := fun hx => hb hx.symm
      have hidx : (b :: rest).indexOf 35 = rest.indexOf 35 + 1 :=
        List.indexOf_cons_ne _ hb
      have hmem : (35 ∈ b :: rest) ↔ 35 ∈ rest := by simp [hb2]
      rw [if_neg hb, if_pos rfl, ite_self, ih (i + 1), hidx]
      simp only [hmem, List.drop_succ_cons, Nat.cast_add, Nat.cast_one]
      split
      · congr 1 <;> ring
      · rfl

/-- The loop of `splitTags` from the start of a caption that contains `'#'`:
the spans emitted tile from the first `'#'` to the start `t2` of the span
open at the end, and `t2` is the first `'#'` exactly when no later byte is
`'#'` or a break character. -/
theorem splitTagsLoop_from_start (d : GoString) (h : 35 ∈ d) :
    Tiling (d.indexOf 35 : Nat) (splitTagsLoop d 0 (-1) []).1 (splitTagsLoop d 0 (-1) []).2 ∧
    (splitTagsLoop d 0 (-1) []).1 < d.length ∧
    ((splitTagsLoop d 0 (-1) []).1 = (d.indexOf 35 : Nat) ↔
      ∀ b ∈ d.drop (d.indexOf 35 + 1), isCloser b = false) := by
  have hk : d.indexOf 35 < d.length := List.indexOf_lt_length.2 h
  rw [splitTagsLoop_closed d 0, if_pos h]
  simp only [zero_add]
  obtain ⟨e2, k1, k2, k3, k4⟩ :=
    splitTagsLoop_open (d.drop (d.indexOf 35 + 1)) ((d.indexOf 35 : Nat) + 1)
      (d.indexOf 35 : Nat) [] (Int.ofNat_nonneg _) (by omega)
  rw [List.nil_append] at k1
  rw [k1]
  refine ⟨k2, ?_, k4⟩
  have hl : ((d.drop (d.indexOf 35 + 1)).length : Int) = d.length - (d.indexOf 35 + 1) := by
    rw [List.length_drop]
    omega
  omega

/-- The value of `splitTags` on a caption that contains `'#'`: empty when
the loop ends with the span open at offset `0`, a tiling from the first `'#'`
to the end of the caption otherwise. -/
theorem splitTags_of_mem (d : GoString) (h : 35 ∈ d) :
    ((splitTagsLoop d 0 (-1) []).1 = 0 ∧ d.indexOf 35 = 0 ∧ splitTags d = []) ∨
    (0 < (splitTagsLoop d 0 (-1) []).1 ∧ splitTags d ≠ [] ∧
      Tiling (d.indexOf 35 : Nat) d.length (splitTags d)) := by
  obtain ⟨k1, k2, _⟩ := splitTagsLoop_from_start d h
  have hle := k1.start_le_end
  by_cases hp : (splitTagsLoop d 0 (-1) []).1 > 0
  · refine Or.inr ⟨hp, ?_, ?_⟩
    · simp only [splitTags, if_pos hp]
      exact List.append_ne_nil_of_right_ne_nil _ (List.cons_ne_nil _ _)
    · simp only [splitTags, if_pos hp]
      have := k1.append_span (n := (d.length : Int) - (splitTagsLoop d 0 (-1) []).1) (by omega)
      have hsum : (splitTagsLoop d 0 (-1) []).1 +
          ((d.length : Int) - (splitTagsLoop d 0 (-1) []).1) = d.length := by omega
      rw [hsum] at this
      exact this
  · have h0 : (splitTagsLoop d 0 (-1) []).1 = 0 := by omega
    have hk0 : ((d.indexOf 35 : Nat) : Int) = 0 := by omega
    refine Or.inl ⟨h0, by exact_mod_cast hk0, ?_⟩
    simp only [splitTags, if_neg hp]
    rw [h0, hk0] at k1
    exact k1.eq_nil_of_eq

theorem splitTags_of_not_mem (d : GoString) (h : 35 ∉ d) : splitTags d = [] := by
  simp only [splitTags, splitTagsLoop_closed d 0, if_neg h]
  rfl

/-- Every span start the loop of `splitTags` produces is the offset of a
`'#'` or of a break character of the caption. -/
theorem splitTagsLoop_closers (d : GoString) (rest pre : List Nat) (t : Int)
    (e : List MessageEntity) (hd : d = pre ++ rest)
    (ht : t = -1 ∨ closerAt d t) (he : ∀ a ∈ e, closerAt d a.Offset) :
    ((splitTagsLoop rest pre.length t e).1 = -1 ∨
      closerAt d (splitTagsLoop rest pre.length t e).1) ∧
    ∀ a ∈ (splitTagsLoop rest pre.length t e).2, closerAt d a.Offset := by
  induction rest generalizing pre t e with
  | nil => exact ⟨ht, he⟩
  | cons b rest ih =>
    have hd2 : d = (pre ++ [b]) ++ rest := by rw [hd, List.append_assoc]; rfl
    have hlen : (((pre ++ [b]).length : Nat) : Int) = (pre.length : Int) + 1 := by
      simp
    have hat : isCloser b = true → closerAt d (pre.length : Int) := by
      intro hb
      refine ⟨Int.ofNat_nonneg _, b, ?_, hb⟩
      rw [hd, Int.toNat_natCast, List.getElem?_append_right (le_refl _), Nat.sub_self]
      exact List.getElem?_cons_zero
    have hsnoc : t ≠ -1 → ∀ a ∈ e ++ [hashtagEntity t ((pre.length : Int) - t)],
        closerAt d a.Offset := by
      intro hne a ha
      rcases List.mem_append.1 ha with h1 | h1
      · exact he a h1
      · rw [List.mem_singleton] at h1
        subst h1
        rcases ht with h2 | h2
        · exact absurd h2 hne
        · exact h2
    have step := fun (t2 : Int) (e2 : List MessageEntity) => ih (pre ++ [b]) t2 e2 hd2
    simp only [hlen] at step
    rw [splitTagsLoop_cons]
    by_cases hb : b = 35
    · have hc : isCloser b = true := by simp [isCloser, hb]
      rw [if_pos hb]
      by_cases h1 : t = -1
      · rw [if_pos h1]
        exact step _ _ (Or.inr (hat hc)) he
      · rw [if_neg h1]
        split
        · exact step _ _ (Or.inr (hat hc)) (hsnoc h1)
        · exact step _ _ (Or.inr (hat hc)) he
    · rw [if_neg hb]
      by_cases hk : isBreak b = true
      · have hc : isCloser b = true := by simp [isCloser, hk]
        rw [if_pos hk]
        by_cases h1 : t = -1
        · rw [if_pos h1]
          exact step _ _ ht he
        · rw [if_neg h1]
          split
          · exact step _ _ (Or.inr (hat hc)) (hsnoc h1)
          · exact step _ _ (Or.inr (hat hc)) he
      · rw [if_neg hk]
        exact step _ _ ht he

theorem splitTags_closers (d : GoString) : ∀ a ∈ splitTags d, closerAt d a.Offset := by
  have h := splitTagsLoop_closers d d [] (-1) [] rfl (Or.inl rfl) (fun a ha => by cases ha)
  simp only [List.length_nil, Nat.cast_zero] at h
  intro a ha
  simp only [splitTags] at ha
  split at ha
  · rename_i hp
    rcases List.mem_append.1 ha with h1 | h1
    · exact h.2 a h1
    · rw [List.mem_singleton] at h1
      subst h1
      rcases h.1 with h2 | h2
      · omega
      · exact h2
  · exact h.2 a ha

/-- C16. For every caption `d` for which `splitTags d` is non-empty: `d`
contains `'#'`; the first span starts at the offset of the first `'#'`; each
span has positive length and each later span starts exactly where the
previous one ends; the last span ends at `len(d)`; every span starts at a
byte that is `'#'` or a break character (so the byte that closed a span
belongs to the next one); and every offset from the first `'#'` to the end of
the caption lies in some span. -/
theorem splitTags_tiles_from_first_hash (d : GoString) (hne : splitTags d ≠ []) :
    35 ∈ d ∧
    (splitTags d).head?.map (fun a => a.Offset) = some ((d.indexOf 35 : Nat) : Int) ∧
    (∀ a ∈ splitTags d, 0 < a.Length) ∧
    (splitTags d).Chain' (fun a b => a.Offset + a.Length = b.Offset) ∧
    (splitTags d).getLast?.map (fun a => a.Offset + a.Length) = some (d.length : Int) ∧
    (∀ a ∈ splitTags d, closerAt d a.Offset) ∧
    (∀ j : Nat, d.indexOf 35 ≤ j → j < d.length →
      ∃ a ∈ splitTags d, a.Offset ≤ (j : Int) ∧ (j : Int) < a.Offset + a.Length) := by
  have hmem : 35 ∈ d := by
    by_contra hn
    exact hne (splitTags_of_not_mem d hn)
  rcases splitTags_of_mem d hmem with ⟨_, _, h0⟩ | ⟨_, _, ht⟩
  · exact absurd h0 hne
  · refine ⟨hmem, ?_, fun a ha => ((splitTags_chain d).bounds a ha).2.1, ht.chain,
      ht.getLast hne, splitTags_closers d, ?_⟩
    · cases hs : splitTags d with
      | nil => exact absurd hs hne
      | cons a r =>
        rw [hs] at ht
        simp [ht.1]
    · intro j h1 h2
      exact ht.cover j (by exact_mod_cast h1) (by exact_mod_cast h2)

/-- C16, at the caption `"Look #cat here"`: the two spans `(5, 4)` and
`(9, 5)` run from the first `'#'` (offset 5) to the end (offset 14); the
second holds the text after the delimiter, which contains no `'#'`. -/
theorem splitTags_tiles_from_first_hash_witness :
    (splitTags (lit "Look #cat here")).head?.map (fun a => a.Offset) = some 5 ∧
    (splitTags (lit "Look #cat here")).getLast?.map (fun a => a.Offset + a.Length) = some 14 ∧
    splitTags (lit "Look #cat here") = [hashtagEntity 5 4, hashtagEntity 9 5] :=
  have h := splitTags_tiles_from_first_hash (lit "Look #cat here") (by decide)
  ⟨h.2.1.trans (by decide), h.2.2.2.2.1.trans (by decide), by decide⟩

/-- C17. `splitTags d` is empty exactly when `d` contains no `'#'`, or `d`
starts with `'#'` and no later byte of `d` is `'#'` or a break character; in
the second case the span open at the end of the string starts at offset `0`
and the trailing `if t > 0` does not emit it. So `splitTags("#cat")` is
empty while `splitTags(" #cat")` is the single span `(1, 4)`. -/
theorem splitTags_empty_iff (d : GoString) :
    (splitTags d = [] ↔
      (35 ∉ d ∨ (d.head? = some 35 ∧ ∀ b ∈ d.tail, isCloser b = false))) ∧
    splitTags (lit "#cat") = [] ∧
    splitTags (lit " #cat") = [hashtagEntity 1 4] := by
  refine ⟨?_, by decide, by decide⟩
  by_cases hmem : 35 ∈ d
  · obtain ⟨_, _, k3⟩ := splitTagsLoop_from_start d hmem
    constructor
    · intro hnil
      rcases splitTags_of_mem d hmem with ⟨h0, hk, _⟩ | ⟨_, hne, _⟩
      · refine Or.inr ⟨?_, ?_⟩
        · cases d with
          | nil => cases hmem
          | cons b r =>
            by_cases hb : b = 35
            · rw [hb]; rfl
            · rw [List.indexOf_cons_ne _ hb] at hk
              cases hk
        · have := k3.1 (by rw [h0, hk]; rfl)
          rw [hk] at this
          simpa using this
      · exact absurd hnil hne
    · rintro (hn | ⟨hh, ht⟩)
      · exact absurd hmem hn
      · cases d with
        | nil => cases hmem
        | cons b r =>
          have hb : b = 35 := by simpa using hh
          subst hb
          have hk : (35 :: r).indexOf 35 = 0 := List.indexOf_cons_self _ _
          rcases splitTags_of_mem (35 :: r) hmem with ⟨_, _, h0⟩ | ⟨hp, _, _⟩
          · exact h0
          · have := k3.2 (by rw [hk]; simpa using ht)
            rw [hk] at this
            rw [this] at hp
            exact absurd hp (by decide)
  · constructor
    · intro _; exact Or.inl hmem
    · intro _; exact splitTags_of_not_mem d hmem

end ForwarderSpec
